import Mathlib

/-!
Shallow embedding of the `three-terrain-lod` core subsystems:

* `InstancePool` (src/core/InstancePool.ts) — fixed-capacity slot allocator;
* `TerrainLOD` configuration and collision pipeline (src/core/TerrainLOD.ts);
* `QuadtreeNode` update pass (src/core/QuadtreeNode.ts).

JavaScript numbers are modelled as real numbers (`ℝ`); the `Infinity`
distance used when no camera is bound is modelled by working in `ℝ≥0∞`.
JavaScript `Map` objects are modelled as association lists with the
insertion-order `set`/`delete`/`get` semantics of the ECMAScript `Map`.
-/

namespace TerrainLOD

/-- Data stored per chunk instance (src/core/types.ts, `ChunkInstanceData`). -/
structure ChunkInstanceData where
  x : ℝ
  z : ℝ
  size : ℝ
  uvScale : ℝ
  uvOffsetX : ℝ
  uvOffsetY : ℝ

/-! ### JavaScript `Map` model

An ECMAScript `Map` keeps entries in insertion order; `set` on an existing
key overwrites in place, `set` on a fresh key appends, `delete` removes the
entry and reports whether it was present.  We model a `Map` whose keys have
decidable equality as an association list with exactly these operations. -/

/-- Association-list model of a JavaScript `Map`. -/
abbrev JsMap (κ ν : Type) : Type := List (κ × ν)

namespace JsMap

variable {κ ν : Type} [DecidableEq κ]

/-- Model of `Map.prototype.get` (returns `undefined` as `none`). -/
def get (k : κ) : JsMap κ ν → Option ν
  | [] => none
  | (k', v) :: rest => if k = k' then some v else get k rest

/-- Model of `Map.prototype.set`: overwrite in place, or append when fresh. -/
def set (k : κ) (v : ν) : JsMap κ ν → JsMap κ ν
  | [] => [(k, v)]
  | (k', v') :: rest => if k = k' then (k', v) :: rest else (k', v') :: set k v rest

/-- Model of `Map.prototype.delete` (dropping the returned Boolean). -/
def del (k : κ) : JsMap κ ν → JsMap κ ν
  | [] => []
  | (k', v') :: rest => if k = k' then rest else (k', v') :: del k rest

/-- Model of `Map.prototype.has`. -/
def hasKey (k : κ) (m : JsMap κ ν) : Bool := decide (k ∈ m.map Prod.fst)

/-- Keys of the map, in insertion order. -/
def keys (m : JsMap κ ν) : List κ := m.map Prod.fst

/-- Model of `Map.prototype.size`. -/
def size (m : JsMap κ ν) : ℕ := m.length

end JsMap

/-! ### InstancePool (src/core/InstancePool.ts)

State of the pool: the `activeInstances` map, the `freeIds` array (a stack
whose top is the array's last element: `push` appends, `pop` removes the
last element), the monotone `nextId` counter and the fixed capacity
`maxInstances`. -/

/-- State of an `InstancePool`. -/
structure PoolState where
  activeInstances : JsMap ℕ ChunkInstanceData
  freeIds : List ℕ
  nextId : ℕ
  maxInstances : ℕ

namespace PoolState

/-- Model of `new InstancePool(maxInstances)`. -/
def init (maxInstances : ℕ) : PoolState :=
  { activeInstances := [], freeIds := [], nextId := 0, maxInstances := maxInstances }

/-- Model of `InstancePool.acquire`: pop the free stack when nonempty, else
issue from the counter while below capacity, else report exhaustion. -/
def acquire (s : PoolState) : Option ℕ × PoolState :=
  if s.freeIds.length > 0 then
    (s.freeIds.getLast?, { s with freeIds := s.freeIds.dropLast })
  else if s.nextId < s.maxInstances then
    (some s.nextId, { s with nextId := s.nextId + 1 })
  else
    (none, s)

/-- Model of `InstancePool.release`: push the id on the free stack only when
`activeInstances.delete(id)` actually removed an entry. -/
def release (id : ℕ) (s : PoolState) : PoolState :=
  if id ∈ s.activeInstances.keys then
    { s with activeInstances := s.activeInstances.del id,
             freeIds := s.freeIds ++ [id] }
  else
    s

/-- Model of `InstancePool.setData`. -/
def setData (id : ℕ) (data : ChunkInstanceData) (s : PoolState) : PoolState :=
  { s with activeInstances := s.activeInstances.set id data }

/-- Model of `InstancePool.getData`. -/
def getData (id : ℕ) (s : PoolState) : Option ChunkInstanceData :=
  s.activeInstances.get id

/-- Model of `InstancePool.getHighestActiveId`. -/
def getHighestActiveId (s : PoolState) : ℤ :=
  if s.activeInstances.size = 0 then -1
  else (s.activeInstances.keys.foldr max 0 : ℕ)

/-- Model of `InstancePool.getStats`. -/
def getStats (s : PoolState) : ℕ × ℕ × ℕ :=
  (s.activeInstances.size, s.freeIds.length, s.nextId)

/-- Currently-bound slot ids: the keys of `activeInstances`. -/
def boundIds (s : PoolState) : List ℕ := s.activeInstances.keys

end PoolState

/-- An externally-driven pool operation, as in the public `InstancePool`
interface (`acquire`, `release`, `setData`). -/
inductive PoolOp where
  | acquire : PoolOp
  | release (id : ℕ) : PoolOp
  | setData (id : ℕ) (data : ChunkInstanceData) : PoolOp

/-- Execute one pool operation (the id returned by `acquire` is discarded). -/
def poolStep (s : PoolState) : PoolOp → PoolState
  | .acquire => (s.acquire).2
  | .release id => s.release id
  | .setData id data => s.setData id data

/-- Execute a sequence of pool operations from a given state. -/
def poolRun (s : PoolState) : List PoolOp → PoolState
  | [] => s
  | op :: ops => poolRun (poolStep s op) ops

/-- A sequence of operations is well-formed from `s` when every `setData`
call targets an id that the counter has already issued — as every caller in
the repository does, `TerrainLOD.addInstance` invoking `setData` only on an
id just returned by `acquire`. -/
def opOK (s : PoolState) : PoolOp → Bool
  | .setData id _ => decide (id < s.nextId)
  | _ => true

def wfOps (s : PoolState) : List PoolOp → Bool
  | [] => true
  | op :: ops => opOK s op && wfOps (poolStep s op) ops

/-! ### Configuration (src/core/TerrainLOD.ts, constructor)

The constructor resolves a partial `TerrainConfig` by substituting defaults
for missing fields (`??` / `||`).  It performs no validation of any kind:
provided values are stored verbatim. -/

/-- Partial configuration passed to `new TerrainLOD(config)`. -/
structure TerrainConfig where
  heightMapUrl : Option String := none
  textureUrl : Option String := none
  worldSize : Option ℝ := none
  maxHeight : Option ℝ := none
  levels : Option ℕ := none
  lodDistanceRatio : Option ℝ := none
  resolution : Option ℕ := none
  wireframe : Option Bool := none
  showChunkBorders : Option Bool := none
  maxChunks : Option ℕ := none

/-- Fully-resolved configuration (src/core/types.ts, `ResolvedTerrainConfig`). -/
structure ResolvedTerrainConfig where
  heightMapUrl : String
  textureUrl : String
  worldSize : ℝ
  maxHeight : ℝ
  levels : ℕ
  lodDistanceRatio : ℝ
  resolution : ℕ
  wireframe : Bool
  showChunkBorders : Bool
  maxChunks : ℕ

/-- Model of the `TerrainLOD` constructor's config resolution (the `??` and
`||` default substitutions); there is no validation in the source. -/
def mkResolvedConfig (config : TerrainConfig) : ResolvedTerrainConfig :=
  { heightMapUrl := config.heightMapUrl.getD ""
    textureUrl := config.textureUrl.getD ""
    worldSize := config.worldSize.getD 2048
    maxHeight := config.maxHeight.getD 250
    levels := config.levels.getD 6
    lodDistanceRatio := config.lodDistanceRatio.getD 2.0
    resolution := config.resolution.getD 64
    wireframe := config.wireframe.getD false
    showChunkBorders := config.showChunkBorders.getD false
    maxChunks := config.maxChunks.getD 500 }

/-- Model of `TerrainLOD.setLODDistanceRatio`: a bare assignment. -/
def setLODDistanceRatio (ratio : ℝ) (cfg : ResolvedTerrainConfig) :
    ResolvedTerrainConfig :=
  { cfg with lodDistanceRatio := ratio }

/-! ### Collision pipeline (src/core/TerrainLOD.ts, Collision API)

The collision cache is a JavaScript `Map` keyed by the template string
`x_z`; since that encoding is injective on pairs of naturals, we key the
model by the pair `(x, z)` directly.  An `ImageGrid` models the pixel data
(`ImageData`) of the heightmap: `data i` is the byte at linear index `i` of
the RGBA array. -/

/-- Pixel data of the heightmap image (`ImageData`). -/
structure ImageGrid where
  width : ℕ
  height : ℕ
  data : ℤ → ℕ

/-- Collision data for one chunk (src/core/types.ts, `ChunkCollisionData`). -/
structure ChunkCollisionData where
  position : ℝ × ℝ × ℝ
  size : ℝ
  index : ℕ × ℕ
  lodLevel : ℕ
  rows : ℕ
  cols : ℕ
  heights : List ℝ
  maxHeight : ℝ
  scale : ℝ × ℝ × ℝ

/-- The fields of a `TerrainLOD` instance that the collision API reads and
writes.  `heightMap` holds the pixels of the loaded heightmap texture. -/
structure CollisionState where
  config : ResolvedTerrainConfig
  collisionCache : JsMap (ℕ × ℕ) ChunkCollisionData
  collisionResolution : ℕ
  heightmapImageData : Option ImageGrid
  heightMap : Option ImageGrid

/-- Model of `TerrainLOD.getHeightAt`. -/
noncomputable def getHeightAt (st : CollisionState) (worldX worldZ : ℝ) : ℝ :=
  match st.heightmapImageData with
  | none => 0
  | some img =>
      let halfWorld := st.config.worldSize / 2
      let u := (worldX + halfWorld) / st.config.worldSize
      let v := (worldZ + halfWorld) / st.config.worldSize
      if u < 0 ∨ u > 1 ∨ v < 0 ∨ v > 1 then 0
      else
        let imgX := ⌊u * ((img.width : ℝ) - 1)⌋
        let imgY := ⌊v * ((img.height : ℝ) - 1)⌋
        let idx := (imgY * img.width + imgX) * 4
        ((img.data idx : ℝ) / 255) * st.config.maxHeight

/-- The normalized height sample (the `heightNormalized` value inside
`getHeightAt`, before denormalization by `maxHeight`; `0` out of bounds). -/
noncomputable def heightNormalized (st : CollisionState) (worldX worldZ : ℝ) : ℝ :=
  match st.heightmapImageData with
  | none => 0
  | some img =>
      let halfWorld := st.config.worldSize / 2
      let u := (worldX + halfWorld) / st.config.worldSize
      let v := (worldZ + halfWorld) / st.config.worldSize
      if u < 0 ∨ u > 1 ∨ v < 0 ∨ v > 1 then 0
      else
        let imgX := ⌊u * ((img.width : ℝ) - 1)⌋
        let imgY := ⌊v * ((img.height : ℝ) - 1)⌋
        let idx := (imgY * img.width + imgX) * 4
        (img.data idx : ℝ) / 255

/-- Model of `TerrainLOD._generateChunkCollisionData`.  The preallocated
`Float32Array(rows * cols)` written at `row * cols + col` is modelled by
`List.ofFn` over the linear index. -/
noncomputable def generateChunkCollisionData (st : CollisionState)
    (chunkX chunkZ : ℕ) (chunkSize halfWorld : ℝ) : ChunkCollisionData :=
  let resolution := st.collisionResolution
  let rows := resolution + 1
  let cols := resolution + 1
  let centerX := (chunkX : ℝ) * chunkSize - halfWorld + chunkSize / 2
  let centerZ := (chunkZ : ℝ) * chunkSize - halfWorld + chunkSize / 2
  let heights := List.ofFn fun i : Fin (rows * cols) =>
    let row := (i : ℕ) / cols
    let col := (i : ℕ) % cols
    let localX := ((col : ℝ) / (resolution : ℝ) - 0.5) * chunkSize
    let localZ := ((row : ℝ) / (resolution : ℝ) - 0.5) * chunkSize
    getHeightAt st (centerX + localX) (centerZ + localZ)
  { position := (centerX, 0, centerZ)
    size := chunkSize
    index := (chunkX, chunkZ)
    lodLevel := 0
    rows := rows
    cols := cols
    heights := heights
    maxHeight := st.config.maxHeight
    scale := (chunkSize, 1, chunkSize) }

/-- Model of `TerrainLOD._extractHeightmapImageData`: keep an existing
snapshot, otherwise take the heightmap's pixels (no-op when absent). -/
def extractHeightmapImageData (st : CollisionState) : CollisionState :=
  if st.heightmapImageData.isSome then st
  else
    match st.heightMap with
    | none => st
    | some img => { st with heightmapImageData := some img }

/-- Model of `TerrainLOD.computeAllCollisionData`: throws when no heightmap
is loaded, otherwise clears the cache and fills it chunk by chunk. -/
noncomputable def computeAllCollisionData (st : CollisionState) :
    Except String CollisionState :=
  match st.heightMap with
  | none => Except.error "Heightmap not loaded yet"
  | some _ =>
    let st1 := extractHeightmapImageData st
    let numChunks : ℕ := 2 ^ (st.config.levels - 1)
    let chunkSize : ℝ := st.config.worldSize / (numChunks : ℝ)
    let halfWorld := st.config.worldSize / 2
    let newCache : JsMap (ℕ × ℕ) ChunkCollisionData :=
      (List.range numChunks).foldl (fun cache z =>
        (List.range numChunks).foldl (fun cache x =>
          cache.set (x, z) (generateChunkCollisionData st1 x z chunkSize halfWorld))
          cache) []
    Except.ok { st1 with collisionCache := newCache }

/-- Model of `TerrainLOD.getChunkCollisionData`. -/
def getChunkCollisionData (st : CollisionState) (x z : ℕ) :
    Option ChunkCollisionData :=
  st.collisionCache.get (x, z)

/-- Model of `TerrainLOD.setCollisionResolution`: store the resolution and
clear the cache. -/
def setCollisionResolution (resolution : ℕ) (st : CollisionState) :
    CollisionState :=
  { st with collisionResolution := resolution, collisionCache := [] }

/-- Key list of the full chunk grid, in the traversal order of
`computeAllCollisionData` (outer loop over `z`, inner loop over `x`). -/
def prodKeys (n : ℕ) : List (ℕ × ℕ) :=
  (List.range n).flatMap fun z => (List.range n).map fun x => (x, z)

/-- World x-coordinate of collision sample `col` of chunk column `chunkX`
(the `centerX + localX` expression of `_generateChunkCollisionData`). -/
noncomputable def collisionSampleX (st : CollisionState) (chunkX col : ℕ) : ℝ :=
  let numChunks : ℕ := 2 ^ (st.config.levels - 1)
  let chunkSize : ℝ := st.config.worldSize / (numChunks : ℝ)
  let halfWorld : ℝ := st.config.worldSize / 2
  ((chunkX : ℝ) * chunkSize - halfWorld + chunkSize / 2) +
    ((col : ℝ) / (st.collisionResolution : ℝ) - 0.5) * chunkSize

/-- World z-coordinate of collision sample `row` of chunk row `chunkZ`. -/
noncomputable def collisionSampleZ (st : CollisionState) (chunkZ row : ℕ) : ℝ :=
  let numChunks : ℕ := 2 ^ (st.config.levels - 1)
  let chunkSize : ℝ := st.config.worldSize / (numChunks : ℝ)
  let halfWorld : ℝ := st.config.worldSize / 2
  ((chunkZ : ℝ) * chunkSize - halfWorld + chunkSize / 2) +
    ((row : ℝ) / (st.collisionResolution : ℝ) - 0.5) * chunkSize

/-- A tiny collision state used to exercise the pipeline at a concrete
input: a one-pixel black heightmap, one LOD level, resolution 32. -/
def c2State : CollisionState :=
  { config := mkResolvedConfig { levels := some 1 }
    collisionCache := []
    collisionResolution := 32
    heightmapImageData := none
    heightMap := some ⟨1, 1, fun _ => 0⟩ }

/-! ### QuadtreeNode (src/core/QuadtreeNode.ts)

`update` mutates the node tree and drives the pool through
`TerrainLOD.addInstance` / `removeInstance`.  The camera is an optional
planar position; the `Infinity` distance returned by
`getDistanceFromCamera` when no camera is bound is the top element of
`ℝ≥0∞`.  The update functions also return the list of chunk enter/exit
events emitted through `TerrainLOD._emitChunkEnterLOD0` /
`_emitChunkExitLOD0` during the pass; the source `update` contains no call
to either, so no equation of the model appends an event. -/

/-- Planar camera position (the `x`/`z` of `camera.position`). -/
structure Camera where
  x : ℝ
  z : ℝ

/-- A quadtree node: immutable footprint `(x, z, size, level)` plus the
mutable `instanceId` (sentinel `-1`), `isLeaf` flag and child list. -/
inductive QNode where
  | mk (x z size : ℝ) (level : ℕ) (instanceId : ℤ) (isLeaf : Bool)
      (children : List QNode)

namespace QNode

def x : QNode → ℝ
  | .mk v _ _ _ _ _ _ => v

def z : QNode → ℝ
  | .mk _ v _ _ _ _ _ => v

def size : QNode → ℝ
  | .mk _ _ v _ _ _ _ => v

def level : QNode → ℕ
  | .mk _ _ _ v _ _ _ => v

def instanceId : QNode → ℤ
  | .mk _ _ _ _ v _ _ => v

def isLeaf : QNode → Bool
  | .mk _ _ _ _ _ v _ => v

def children : QNode → List QNode
  | .mk _ _ _ _ _ _ v => v

/-- Overwrite the `instanceId` field (the `this.instanceId = ...` writes). -/
def setId : QNode → ℤ → QNode
  | .mk x z s l _ leaf cs, id => .mk x z s l id leaf cs

end QNode

/-- A chunk enter/exit notification delivered to the collision callback. -/
inductive ChunkEvent where
  | enter (x z : ℕ) : ChunkEvent
  | exit (x z : ℕ) : ChunkEvent

/-- Model of `QuadtreeNode.getDistanceFromCamera`: planar distance to the
node's center, `Infinity` (here `⊤`) when no camera is bound. -/
noncomputable def getDistanceFromCamera (cam : Option Camera) (nx nz : ℝ) : ENNReal :=
  match cam with
  | none => ⊤
  | some c =>
      let dx := c.x - nx
      let dz := c.z - nz
      ENNReal.ofReal (Real.sqrt (dx * dx + dz * dz))

/-- The `shouldSplit` condition of `QuadtreeNode.update`: strictly closer
than `size * lodDistanceRatio` and not yet at the finest level. -/
def ShouldSplit (cam : Option Camera) (cfg : ResolvedTerrainConfig)
    (n : QNode) : Prop :=
  getDistanceFromCamera cam n.x n.z <
    ENNReal.ofReal (n.size * cfg.lodDistanceRatio) ∧
  n.level < cfg.levels - 1

/-- Model of `QuadtreeNode.getUVTransform`, as `(scale, offsetX, offsetY)`. -/
noncomputable def getUVTransform (cfg : ResolvedTerrainConfig) (x z size : ℝ) :
    ℝ × ℝ × ℝ :=
  let worldSize := cfg.worldSize
  let halfWorld := worldSize / 2
  let scale := size / worldSize
  let centerUVX := (x + halfWorld) / worldSize
  let centerUVY := (z + halfWorld) / worldSize
  (scale, centerUVX - scale / 2, centerUVY - scale / 2)

/-- Model of `TerrainLOD.addInstance` (its pool effects): acquire a slot and
store the chunk data, or report `-1` when the pool is exhausted. -/
def addInstance (data : ChunkInstanceData) (p : PoolState) : ℤ × PoolState :=
  match p.acquire with
  | (none, p') => (-1, p')
  | (some id, p') => ((id : ℤ), p'.setData id data)

/-- Model of `TerrainLOD.removeInstance` (its pool effects). -/
def removeInstance (id : ℤ) (p : PoolState) : PoolState :=
  if id = -1 then p else p.release id.toNat

/-- Model of `QuadtreeNode.registerInstance`: build the chunk record from
the node's footprint and UV transform and add it to the pool. -/
noncomputable def registerInstance (cfg : ResolvedTerrainConfig) (n : QNode)
    (p : PoolState) : ℤ × PoolState :=
  let uv := getUVTransform cfg n.x n.z n.size
  addInstance
    { x := n.x, z := n.z, size := n.size,
      uvScale := uv.1, uvOffsetX := uv.2.1, uvOffsetY := uv.2.2 } p

mutual

/-- Model of `QuadtreeNode.dispose`: release the node's own slot, then
dispose every child. -/
def disposeNode : QNode → PoolState → PoolState
  | .mk _ _ _ _ id _ children, p => disposeList children (removeInstance id p)

/-- Dispose a list of nodes left to right (`children.forEach(dispose)`). -/
def disposeList : List QNode → PoolState → PoolState
  | [], p => p
  | c :: cs, p => disposeList cs (disposeNode c p)

end

/-- Model of `QuadtreeNode.split`: clear the leaf flag, unregister the slot
and create the four half-size children in source order. -/
noncomputable def splitNode : QNode → PoolState → QNode × PoolState
  | .mk x z size level id _ _, p =>
      let p1 := removeInstance id p
      let halfSize := size / 2
      let quarterOffset := size / 4
      let nextLevel := level + 1
      (QNode.mk x z size level (-1) false
        [QNode.mk (x - quarterOffset) (z - quarterOffset) halfSize nextLevel (-1) true [],
         QNode.mk (x + quarterOffset) (z - quarterOffset) halfSize nextLevel (-1) true [],
         QNode.mk (x - quarterOffset) (z + quarterOffset) halfSize nextLevel (-1) true [],
         QNode.mk (x + quarterOffset) (z + quarterOffset) halfSize nextLevel (-1) true []],
       p1)

/-- Model of `QuadtreeNode.merge`: set the leaf flag, dispose all children
and drop them.  The node's own `instanceId` is left untouched. -/
def mergeNode : QNode → PoolState → QNode × PoolState
  | .mk x z size level id _ children, p =>
      (QNode.mk x z size level id true [], disposeList children p)

mutual

/-- Model of `QuadtreeNode.update`.  `fuel` bounds the recursion depth
(`update` recurses into freshly created children, so the recursion is on
the remaining depth rather than the input tree); every theorem below uses
enough fuel for the configured level count.  The third component is the
list of chunk events emitted during the pass. -/
noncomputable def updateNode (cam : Option Camera) (cfg : ResolvedTerrainConfig) :
    ℕ → QNode → PoolState → QNode × PoolState × List ChunkEvent
  | 0, n, p => (n, p, [])
  | fuel + 1, n, p =>
      have := Classical.propDecidable (ShouldSplit cam cfg n)
      if ShouldSplit cam cfg n then
        let sp := if n.isLeaf then splitNode n p else (n, p)
        let r := updateChildren cam cfg fuel (sp.1).children sp.2
        (QNode.mk sp.1.x sp.1.z sp.1.size sp.1.level sp.1.instanceId sp.1.isLeaf r.1,
         r.2.1, r.2.2)
      else
        let m := if n.isLeaf then (n, p) else mergeNode n p
        if m.1.instanceId = -1 then
          let ri := registerInstance cfg m.1 m.2
          (m.1.setId ri.1, ri.2, [])
        else (m.1, m.2, [])
termination_by fuel _ _ => (fuel, 0)

/-- Update each child in order (`children.forEach(child => child.update())`),
threading the pool and concatenating emitted events. -/
noncomputable def updateChildren (cam : Option Camera) (cfg : ResolvedTerrainConfig) :
    ℕ → List QNode → PoolState → List QNode × PoolState × List ChunkEvent
  | _, [], p => ([], p, [])
  | fuel, c :: cs, p =>
      let r1 := updateNode cam cfg fuel c p
      let r2 := updateChildren cam cfg fuel cs r1.2.1
      (r1.1 :: r2.1, r2.2.1, r1.2.2 ++ r2.2.2)
termination_by fuel cs _ => (fuel, cs.length + 1)

end

/-- Structural stability with respect to a camera: a node is internal
exactly when it should split, and all children are stable.  The first
`update` pass with sufficient fuel establishes this. -/
inductive Stable (cam : Option Camera) (cfg : ResolvedTerrainConfig) : QNode → Prop where
  | mk : ∀ n : QNode, (n.isLeaf = false ↔ ShouldSplit cam cfg n) →
      (∀ c ∈ n.children, Stable cam cfg c) → Stable cam cfg n

/-- Well-formedness of a tree: leaves have no children, and children sit
one level below their parent. -/
inductive WellFormed : QNode → Prop where
  | mk : ∀ n : QNode, (n.isLeaf = true → n.children = []) →
      (∀ c ∈ n.children, c.level = n.level + 1) →
      (∀ c ∈ n.children, WellFormed c) → WellFormed n

/-- Every leaf of the tree holds a render slot. -/
inductive AllLeavesAssigned : QNode → Prop where
  | mk : ∀ n : QNode, (n.isLeaf = true → n.instanceId ≠ -1) →
      (∀ c ∈ n.children, AllLeavesAssigned c) → AllLeavesAssigned n

/-- Erase the `instanceId` fields, keeping the structure (footprints,
leaf/internal status, child shape): two trees with the same `stripIds`
image differ at most in slot assignment. -/
def stripIds : QNode → QNode
  | .mk x z s l _ leaf cs => .mk x z s l 0 leaf (cs.attach.map fun c => stripIds c.1)
decreasing_by
  simp_wf
  have := List.sizeOf_lt_of_mem c.2
  omega

/-- Sample chunk data used to exercise the model at concrete inputs. -/
def sampleData : ChunkInstanceData :=
  { x := 0, z := 0, size := 0, uvScale := 0, uvOffsetX := 0, uvOffsetY := 0 }

/-- Configuration for the concrete chunk-event scenario: 2 LOD levels, so
level 1 is the finest; a camera at the world center forces the root to
split and its four children to settle as finest-level leaves. -/
def cfgC4 : ResolvedTerrainConfig :=
  { heightMapUrl := "", textureUrl := "", worldSize := 4, maxHeight := 250,
    levels := 2, lodDistanceRatio := 1, resolution := 64, wireframe := false,
    showChunkBorders := false, maxChunks := 4 }

/-- Fresh root for the chunk-event scenario. -/
def rootC4 : QNode := QNode.mk 0 0 4 0 (-1) true []

/-- Configuration for the idempotence counterexample: 3 LOD levels over a
4-unit world with ratio 1 and capacity 6. -/
def cfgC8 : ResolvedTerrainConfig :=
  { heightMapUrl := "", textureUrl := "", worldSize := 4, maxHeight := 250,
    levels := 3, lodDistanceRatio := 1, resolution := 64, wireframe := false,
    showChunkBorders := false, maxChunks := 6 }

/-- Camera for the idempotence counterexample. -/
def camC8 : Option Camera := some ⟨3, 0⟩

/-- Level-1 child at `(-1, -1)`: a leaf that lost the race for a slot. -/
def nA : QNode := QNode.mk (-1) (-1) 2 1 (-1) true []

/-- Level-1 child at `(1, -1)`: a leaf holding slot 0. -/
def nB : QNode := QNode.mk 1 (-1) 2 1 0 true []

/-- Level-1 child at `(-1, 1)`: a leaf holding slot 1. -/
def nC : QNode := QNode.mk (-1) 1 2 1 1 true []

/-- Finest-level grandchildren of `nD`, holding slots 2, 3, 4, 5. -/
def nD1 : QNode := QNode.mk 0 0 1 2 2 true []

def nD2 : QNode := QNode.mk 0 0 1 2 3 true []

def nD3 : QNode := QNode.mk 0 0 1 2 4 true []

def nD4 : QNode := QNode.mk 0 0 1 2 5 true []

/-- Level-1 child at `(1, 1)`: internal, its four grandchildren assigned. -/
def nD : QNode := QNode.mk 1 1 2 1 (-1) false [nD1, nD2, nD3, nD4]

/-- Tree state for the idempotence counterexample: the root is split, three
children are leaves, the fourth is split one level further. -/
def rootC8 : QNode := QNode.mk 0 0 4 0 (-1) false [nA, nB, nC, nD]

/-- Pool state matching `rootC8`: slots 0–5 bound, counter exhausted. -/
def poolC8 : PoolState :=
  { activeInstances := [(0, sampleData), (1, sampleData), (2, sampleData),
      (3, sampleData), (4, sampleData), (5, sampleData)],
    freeIds := [], nextId := 6, maxInstances := 6 }

/-- The merged `nD` after the first pass, holding recycled slot 5. -/
def nDafter : QNode := QNode.mk 1 1 2 1 5 true []

/-- Pool after the first pass: `nD`'s subtree released slots 2–5, the merged
leaf took 5 back, and `nA` stayed empty-handed. -/
noncomputable def pAfterD : PoolState :=
  (registerInstance cfgC8 (QNode.mk 1 1 2 1 (-1) true [])
    (disposeList [nD1, nD2, nD3, nD4] poolC8)).2

/-- Pool after the second pass, in which `nA` finally acquired slot 4. -/
noncomputable def pFinal : PoolState := (registerInstance cfgC8 nA pAfterD).2

/-- Check that a sequence of operations never calls `setData` on `id`. -/
def avoidsSet (id : ℕ) (ops : List PoolOp) : Bool :=
  ops.all fun op =>
    match op with
    | .setData j _ => decide (j ≠ id)
    | _ => true

/-- Internal pool invariant: bound ids and free ids are below the counter,
bound ids are distinct, and the counter never exceeds the capacity. -/
def PoolInv (s : PoolState) : Prop :=
  s.boundIds.Nodup ∧
  (∀ id ∈ s.boundIds, id < s.nextId) ∧
  (∀ id ∈ s.freeIds, id < s.nextId) ∧
  s.nextId ≤ s.maxInstances
/-- Leaked-id predicate: `id` was issued by the counter but is neither free
nor bound, so the pool has lost track of it. -/
def Leaked (id : ℕ) (s : PoolState) : Prop :=
  id < s.nextId ∧ id ∉ s.freeIds ∧ id ∉ s.boundIds

/-- The claim C3 counterexample operation list: a single `setData` call with
an id the capacity-1 pool never issued. -/
def c3BadOps : List PoolOp := [PoolOp.setData 3 sampleData]

/-- The claim C3 witness operation list. -/
def c3GoodOps : List PoolOp :=
  [PoolOp.acquire, PoolOp.setData 0 sampleData, PoolOp.release 0, PoolOp.acquire]

/-- The C9 counterexample configuration: negative world size, zero levels,
negative LOD ratio, resolution outside any enumerated set, zero capacity. -/
def c9BadInput : TerrainConfig :=
  { worldSize := some (-5), levels := some 0, lodDistanceRatio := some (-1),
    resolution := some 7, maxChunks := some 0 }

/-! ### Lemmas about the JsMap model -/

namespace JsMap

variable {κ ν : Type} [DecidableEq κ]

theorem get_eq_none_of_not_mem {k : κ} {m : JsMap κ ν} (h : k ∉ m.keys) :
    m.get k = none := by
  induction m with
  | nil => rfl
  | cons hd tl ih =>
      simp only [keys, List.map_cons, List.mem_cons] at h
      push_neg at h
      simp only [get, if_neg h.1]
      exact ih (by simpa [keys] using h.2)

theorem keys_del_sublist {k : κ} {m : JsMap κ ν} :
    ((m.del k).keys).Sublist m.keys := by
  induction m with
  | nil => exact List.Sublist.refl _
  | cons hd tl ih =>
      by_cases h : k = hd.1
      · simp only [del, keys, if_pos h]
        exact List.sublist_cons_self hd.1 (List.map Prod.fst tl)
      · simpa [del, keys, if_neg h] using ih.cons₂ hd.1

theorem keys_set_of_mem {k : κ} {v : ν} {m : JsMap κ ν} (h : k ∈ m.keys) :
    (m.set k v).keys = m.keys := by
  induction m with
  | nil => simp [keys] at h
  | cons hd tl ih =>
      simp only [keys, List.map_cons, List.mem_cons] at h
      by_cases hk : k = hd.1
      · simp [set, if_pos hk, keys]
      · have hmem : k ∈ keys tl := by
          rcases h with h | h
          · exact absurd h hk
          · simpa [keys] using h
        have := ih hmem
        simp only [keys] at this
        simp [set, if_neg hk, keys, this]

theorem keys_set_of_not_mem {k : κ} {v : ν} {m : JsMap κ ν} (h : k ∉ m.keys) :
    (m.set k v).keys = m.keys ++ [k] := by
  induction m with
  | nil => rfl
  | cons hd tl ih =>
      simp only [keys, List.map_cons, List.mem_cons] at h
      push_neg at h
      have := ih (by simpa [keys] using h.2)
      simp only [keys] at this
      simp [set, if_neg h.1, keys, this]

theorem nodup_keys_del {k : κ} {m : JsMap κ ν} (h : m.keys.Nodup) :
    (m.del k).keys.Nodup :=
  h.sublist keys_del_sublist

theorem nodup_keys_set {k : κ} {v : ν} {m : JsMap κ ν} (h : m.keys.Nodup) :
    (m.set k v).keys.Nodup := by
  by_cases hk : k ∈ m.keys
  · rwa [keys_set_of_mem hk]
  · rw [keys_set_of_not_mem hk]
    refine List.Nodup.append h (List.nodup_singleton k) ?_
    intro a ha hb
    rw [List.mem_singleton] at hb
    exact hk (hb ▸ ha)

theorem mem_keys_set {k k' : κ} {v : ν} {m : JsMap κ ν} :
    k' ∈ (m.set k v).keys ↔ k' ∈ m.keys ∨ k' = k := by
  by_cases hk : k ∈ m.keys
  · rw [keys_set_of_mem hk]
    constructor
    · exact Or.inl
    · rintro (h | rfl)
      · exact h
      · exact hk
  · rw [keys_set_of_not_mem hk]
    simp

theorem mem_keys_del {k k' : κ} {m : JsMap κ ν} (h : k' ∈ (m.del k).keys) :
    k' ∈ m.keys :=
  keys_del_sublist.subset h

end JsMap


theorem poolInv_init (c : ℕ) : PoolInv (PoolState.init c) := by
  refine ⟨List.nodup_nil, ?_, ?_, Nat.zero_le c⟩ <;> intro id h <;> cases h

theorem poolInv_acquire {s : PoolState} (h : PoolInv s) : PoolInv (s.acquire).2 := by
  obtain ⟨h1, h2, h3, h4⟩ := h
  unfold PoolState.acquire
  by_cases hf : s.freeIds.length > 0
  · rw [if_pos hf]
    exact ⟨h1, h2, fun id hid => h3 id ((List.dropLast_sublist _).subset hid), h4⟩
  · rw [if_neg hf]
    by_cases hn : s.nextId < s.maxInstances
    · rw [if_pos hn]
      refine ⟨h1, fun id hid => ?_, fun id hid => ?_, hn⟩
      · exact Nat.lt_succ_of_lt (h2 id hid)
      · exact Nat.lt_succ_of_lt (h3 id hid)
    · rw [if_neg hn]
      exact ⟨h1, h2, h3, h4⟩

theorem poolInv_release {s : PoolState} (id : ℕ) (h : PoolInv s) :
    PoolInv (s.release id) := by
  obtain ⟨h1, h2, h3, h4⟩ := h
  unfold PoolState.release
  by_cases hm : id ∈ s.activeInstances.keys
  · rw [if_pos hm]
    refine ⟨JsMap.nodup_keys_del h1, ?_, ?_, h4⟩
    · intro i hi
      exact h2 i (JsMap.mem_keys_del hi)
    · intro i hi
      rcases List.mem_append.1 hi with hi | hi
      · exact h3 i hi
      · rw [List.mem_singleton] at hi
        exact hi ▸ h2 id hm
  · rw [if_neg hm]
    exact ⟨h1, h2, h3, h4⟩

theorem poolInv_setData {s : PoolState} {id : ℕ} (data : ChunkInstanceData)
    (hid : id < s.nextId) (h : PoolInv s) : PoolInv (s.setData id data) := by
  obtain ⟨h1, h2, h3, h4⟩ := h
  refine ⟨JsMap.nodup_keys_set h1, ?_, h3, h4⟩
  intro i hi
  rcases JsMap.mem_keys_set.1 hi with hi | rfl
  · exact h2 i hi
  · exact hid

theorem poolInv_run {s : PoolState} {ops : List PoolOp}
    (hwf : wfOps s ops = true) (h : PoolInv s) : PoolInv (poolRun s ops) := by
  induction ops generalizing s with
  | nil => exact h
  | cons op ops ih =>
      rw [wfOps, Bool.and_eq_true] at hwf
      cases op with
      | acquire => exact ih hwf.2 (poolInv_acquire h)
      | release id => exact ih hwf.2 (poolInv_release id h)
      | setData id data =>
          exact ih hwf.2 (poolInv_setData data (by simpa [opOK] using hwf.1) h)

theorem poolStep_maxInstances (s : PoolState) (op : PoolOp) :
    (poolStep s op).maxInstances = s.maxInstances := by
  cases op with
  | acquire =>
      simp only [poolStep, PoolState.acquire]
      split
      · rfl
      · split <;> rfl
  | release id =>
      simp only [poolStep, PoolState.release]
      split <;> rfl
  | setData id data => rfl

theorem poolRun_maxInstances (s : PoolState) (ops : List PoolOp) :
    (poolRun s ops).maxInstances = s.maxInstances := by
  induction ops generalizing s with
  | nil => rfl
  | cons op ops ih => rw [poolRun, ih, poolStep_maxInstances]

theorem mem_of_getLastEqSome {l : List ℕ} {a : ℕ} (h : l.getLast? = some a) :
    a ∈ l := by
  obtain ⟨hne, rfl⟩ := List.mem_getLast?_eq_getLast (show a ∈ l.getLast? from h)
  exact List.getLast_mem hne

theorem length_le_of_nodup_of_lt {l : List ℕ} {n : ℕ} (hnd : l.Nodup)
    (hlt : ∀ a ∈ l, a < n) : l.length ≤ n := by
  have hsub : l.toFinset ⊆ Finset.range n := by
    intro a ha
    rw [List.mem_toFinset] at ha
    exact Finset.mem_range.2 (hlt a ha)
  calc l.length = l.toFinset.card := (List.toFinset_card_of_nodup hnd).symm
    _ ≤ (Finset.range n).card := Finset.card_le_card hsub
    _ = n := Finset.card_range n

theorem length_le_of_nodup_of_lt_of_ne {l : List ℕ} {n x : ℕ} (hnd : l.Nodup)
    (hlt : ∀ a ∈ l, a < n) (hx : x < n) (hne : x ∉ l) : l.length ≤ n - 1 := by
  have hsub : l.toFinset ⊆ (Finset.range n).erase x := by
    intro a ha
    rw [List.mem_toFinset] at ha
    exact Finset.mem_erase.2 ⟨fun e => hne (e ▸ ha), Finset.mem_range.2 (hlt a ha)⟩
  calc l.length = l.toFinset.card := (List.toFinset_card_of_nodup hnd).symm
    _ ≤ ((Finset.range n).erase x).card := Finset.card_le_card hsub
    _ = n - 1 := by rw [Finset.card_erase_of_mem (Finset.mem_range.2 hx), Finset.card_range]

theorem leaked_step {id : ℕ} {s : PoolState} {op : PoolOp} (h : Leaked id s)
    (havoid : (match op with | PoolOp.setData j _ => j ≠ id | _ => True)) :
    Leaked id (poolStep s op) := by
  obtain ⟨h1, h2, h3⟩ := h
  cases op with
  | acquire =>
      simp only [poolStep, PoolState.acquire]
      split
      · exact ⟨h1, fun hmem => h2 ((List.dropLast_sublist _).subset hmem), h3⟩
      · split
        · exact ⟨Nat.lt_succ_of_lt h1, h2, h3⟩
        · exact ⟨h1, h2, h3⟩
  | release j =>
      simp only [poolStep, PoolState.release]
      split
      · next hj =>
          refine ⟨h1, ?_, ?_⟩
          · intro hmem
            rcases List.mem_append.1 hmem with hmem | hmem
            · exact h2 hmem
            · rw [List.mem_singleton] at hmem
              exact h3 (hmem ▸ hj)
          · intro hmem
            exact h3 (JsMap.mem_keys_del hmem)
      · exact ⟨h1, h2, h3⟩
  | setData j data =>
      refine ⟨h1, h2, ?_⟩
      intro hmem
      rcases JsMap.mem_keys_set.1 hmem with hmem | rfl
      · exact h3 hmem
      · exact havoid rfl

theorem leaked_run {id : ℕ} {s : PoolState} {ops : List PoolOp} (h : Leaked id s)
    (havoid : avoidsSet id ops = true) : Leaked id (poolRun s ops) := by
  induction ops generalizing s with
  | nil => exact h
  | cons op ops ih =>
      rw [avoidsSet, List.all_cons, Bool.and_eq_true] at havoid
      refine ih ?_ havoid.2
      refine leaked_step h ?_
      cases op with
      | acquire => trivial
      | release j => trivial
      | setData j data => simpa using havoid.1

theorem acquire_ne_of_leaked {id : ℕ} {s : PoolState} (h : Leaked id s) :
    (s.acquire).1 ≠ some id := by
  obtain ⟨h1, h2, h3⟩ := h
  simp only [PoolState.acquire]
  split
  · intro heq
    exact h2 (mem_of_getLastEqSome heq)
  · split
    · intro heq
      rw [Option.some_inj] at heq
      exact absurd (heq ▸ h1) (lt_irrefl _)
    · intro heq
      cases heq

/-- C3 (corrected): the pool-wide invariant on bound slot ids, for operation
sequences whose `setData` calls only target counter-issued ids. -/
theorem pool_boundIds_invariant (c : ℕ) (ops : List PoolOp)
    (hwf : wfOps (PoolState.init c) ops = true) :
    (poolRun (PoolState.init c) ops).boundIds.Nodup ∧
    (poolRun (PoolState.init c) ops).boundIds.length ≤ c ∧
    (∀ id ∈ (poolRun (PoolState.init c) ops).boundIds, id < c) := by
  have hinv := poolInv_run hwf (poolInv_init c)
  obtain ⟨h1, h2, h3, h4⟩ := hinv
  have hmax := poolRun_maxInstances (PoolState.init c) ops
  rw [PoolState.init] at hmax
  have hlt : ∀ id ∈ (poolRun (PoolState.init c) ops).boundIds, id < c := by
    intro id hid
    calc id < (poolRun (PoolState.init c) ops).nextId := h2 id hid
      _ ≤ (poolRun (PoolState.init c) ops).maxInstances := h4
      _ = c := hmax
  exact ⟨h1, length_le_of_nodup_of_lt h1 hlt, hlt⟩

theorem pool_boundIds_invariant_witness :
    (poolRun (PoolState.init 2) c3GoodOps).boundIds.Nodup ∧
    (poolRun (PoolState.init 2) c3GoodOps).boundIds.length ≤ 2 ∧
    (∀ id ∈ (poolRun (PoolState.init 2) c3GoodOps).boundIds, id < 2) :=
  pool_boundIds_invariant 2 c3GoodOps (by decide)

/-- C3 counterexample: with an unrestricted `setData`, a capacity-1 pool
ends up with bound id `3`, outside `[0, 1)`. -/
theorem pool_boundIds_counterexample :
    3 ∈ (poolRun (PoolState.init 1) c3BadOps).boundIds ∧ ¬ (3 < 1) := by
  constructor
  · show 3 ∈ JsMap.keys (JsMap.set 3 sampleData [])
    simp [JsMap.set, JsMap.keys]
  · decide

/-- C5 counterexample: on a fresh capacity-2 pool, `acquire` returns `0`,
`release 0` is a no-op because `setData` was never called, and the second
`acquire` returns `1`, not `0`. -/
theorem pool_lifo_counterexample :
    ((PoolState.init 2).acquire).1 = some 0 ∧
    ((((PoolState.init 2).acquire).2.release 0).acquire).1 = some 1 ∧
    ((((PoolState.init 2).acquire).2.release 0).acquire).1 ≠ some 0 := by
  refine ⟨rfl, ?_, ?_⟩ <;> decide

/-- C5 (corrected): `acquire; setData; release; acquire` returns the same id
(LIFO reuse); the intermediate `setData` is required, since `release` only
recycles ids present in the data map. -/
theorem pool_lifo_roundtrip (s : PoolState) (id : ℕ) (d : ChunkInstanceData)
    (h : (s.acquire).1 = some id) :
    (((((s.acquire).2).setData id d).release id).acquire).1 = some id := by
  unfold PoolState.acquire at h ⊢
  by_cases hf : s.freeIds.length > 0
  · rw [if_pos hf] at h
    simp only [if_pos hf, PoolState.setData, PoolState.release]
    rw [if_pos (JsMap.mem_keys_set.2 (Or.inr rfl))]
    simp only []
    rw [if_pos (by simp), List.getLast?_concat]
  · rw [if_neg hf] at h
    by_cases hn : s.nextId < s.maxInstances
    · rw [if_pos hn] at h
      rw [Option.some_inj] at h
      subst h
      simp only [if_neg hf, if_pos hn, PoolState.setData, PoolState.release]
      rw [if_pos (JsMap.mem_keys_set.2 (Or.inr rfl))]
      have hfe : s.freeIds = [] := by
        cases hl : s.freeIds with
        | nil => rfl
        | cons a l => rw [hl] at hf; simp at hf
      simp only [hfe]
      rw [if_pos (by simp), List.getLast?_concat]
    · rw [if_neg hn] at h
      cases h

theorem pool_lifo_roundtrip_witness :
    ((((((PoolState.init 1).acquire).2).setData 0 sampleData).release 0).acquire).1
      = some 0 :=
  pool_lifo_roundtrip (PoolState.init 1) 0 sampleData (by decide)

/-- C6 (confirmed): under the counter and free-list bounds that hold in every
reachable pool state, `acquire` reports exhaustion exactly when the counter
has issued `maxInstances` ids and the free list is empty, and otherwise
returns an id below the capacity. -/
theorem pool_acquire_exhausted_iff (s : PoolState)
    (h1 : s.nextId ≤ s.maxInstances)
    (h2 : ∀ id ∈ s.freeIds, id < s.maxInstances) :
    (((s.acquire).1 = none) ↔
      ((s.getStats).2.2 = s.maxInstances ∧ s.freeIds = [])) ∧
    (∀ id, (s.acquire).1 = some id → id < s.maxInstances) := by
  simp only [PoolState.acquire, PoolState.getStats]
  by_cases hf : s.freeIds.length > 0
  · rw [if_pos hf]
    obtain ⟨a, l, hl⟩ : ∃ a l, s.freeIds = l ++ [a] := by
      cases hl : s.freeIds.reverse with
      | nil =>
          rw [← s.freeIds.reverse_reverse, hl] at hf
          simp at hf
      | cons a l => exact ⟨a, l.reverse, by rw [← s.freeIds.reverse_reverse, hl]; simp⟩
    constructor
    · rw [hl, List.getLast?_concat]
      constructor
      · intro h
        cases h
      · rintro ⟨-, h⟩
        exact absurd h (by simp)
    · intro id hid
      rw [hl, List.getLast?_concat, Option.some_inj] at hid
      exact h2 id (hid ▸ (hl ▸ List.mem_append.2 (Or.inr (List.mem_singleton.2 rfl))))
  · rw [if_neg hf]
    have hfe : s.freeIds = [] := by
      cases hl : s.freeIds with
      | nil => rfl
      | cons a l => rw [hl] at hf; simp at hf
    by_cases hn : s.nextId < s.maxInstances
    · rw [if_pos hn]
      refine ⟨⟨fun h => Option.noConfusion h, fun h => absurd (h.1 ▸ hn) (lt_irrefl _)⟩, ?_⟩
      intro id hid
      rw [Option.some_inj] at hid
      exact hid ▸ hn
    · rw [if_neg hn]
      refine ⟨⟨fun _ => ⟨le_antisymm h1 (le_of_not_lt hn), hfe⟩, fun _ => rfl⟩, ?_⟩
      intro id hid
      cases hid

theorem pool_acquire_exhausted_iff_witness :
    ((((PoolState.init 0).acquire).1 = none) ↔
      (((PoolState.init 0).getStats).2.2 = (PoolState.init 0).maxInstances ∧
        (PoolState.init 0).freeIds = [])) ∧
    (∀ id, ((PoolState.init 0).acquire).1 = some id →
      id < (PoolState.init 0).maxInstances) :=
  pool_acquire_exhausted_iff (PoolState.init 0) (by decide) (by decide)

/-- C10 (confirmed): releasing an id for which `setData` was never called is
a complete no-op, the id is never handed out by any later `acquire` (absent
further `setData` calls on it), and the bound-id count stays at least one
below capacity from then on. -/
theorem pool_release_without_setData (s : PoolState) (id : ℕ) (ops : List PoolOp)
    (hinv : PoolInv s) (hlt : id < s.nextId) (hfree : id ∉ s.freeIds)
    (hbound : id ∉ s.boundIds) (hwf : wfOps s ops = true)
    (havoid : avoidsSet id ops = true) :
    s.release id = s ∧
    ((poolRun s ops).acquire).1 ≠ some id ∧
    (poolRun s ops).boundIds.length ≤ s.maxInstances - 1 := by
  have hleak : Leaked id (poolRun s ops) := leaked_run ⟨hlt, hfree, hbound⟩ havoid
  have hinv' := poolInv_run hwf hinv
  obtain ⟨h1, h2, h3, h4⟩ := hinv'
  have hmax := poolRun_maxInstances s ops
  refine ⟨?_, acquire_ne_of_leaked hleak, ?_⟩
  · simp only [PoolState.boundIds] at hbound
    rw [PoolState.release, if_neg hbound]
  · have hnext : s.nextId ≤ s.maxInstances := by
      obtain ⟨-, -, -, h⟩ := hinv
      exact h
    refine length_le_of_nodup_of_lt_of_ne h1 ?_ ?_ hleak.2.2
    · intro a ha
      calc a < (poolRun s ops).nextId := h2 a ha
        _ ≤ (poolRun s ops).maxInstances := h4
        _ = s.maxInstances := hmax
    · calc id < s.nextId := hlt
        _ ≤ s.maxInstances := hnext

theorem jsmap_set_eq_append {κ ν : Type} [DecidableEq κ] {k : κ} {v : ν}
    {m : JsMap κ ν} (h : k ∉ m.keys) : m.set k v = m ++ [(k, v)] := by
  induction m with
  | nil => rfl
  | cons hd tl ih =>
      simp only [JsMap.keys, List.map_cons, List.mem_cons] at h
      push_neg at h
      obtain ⟨k', v'⟩ := hd
      simp only [JsMap.set, if_neg h.1]
      rw [ih (by simpa [JsMap.keys] using h.2)]
      rfl

theorem jsmap_get_mem {κ ν : Type} [DecidableEq κ] {k : κ} {v : ν} :
    ∀ {m : JsMap κ ν}, m.get k = some v → (k, v) ∈ m := by
  intro m
  induction m with
  | nil => intro h; cases h
  | cons hd tl ih =>
      intro h
      obtain ⟨k', v'⟩ := hd
      rw [JsMap.get] at h
      by_cases hk : k = k'
      · rw [if_pos hk, Option.some_inj] at h
        exact List.mem_cons.2 (Or.inl (by rw [hk, h]))
      · rw [if_neg hk] at h
        exact List.mem_cons.2 (Or.inr (ih h))

theorem jsmap_foldl_set_fresh {κ ν : Type} [DecidableEq κ] (gen : κ → ν) :
    ∀ (ks : List κ) (m : JsMap κ ν), ks.Nodup → (∀ k ∈ ks, k ∉ m.keys) →
      ks.foldl (fun acc k => acc.set k (gen k)) m = m ++ ks.map (fun k => (k, gen k)) := by
  intro ks
  induction ks with
  | nil => intro m _ _; simp
  | cons k ks ih =>
      intro m hnd hfresh
      rw [List.foldl_cons]
      have hset : m.set k (gen k) = m ++ [(k, gen k)] :=
        jsmap_set_eq_append (hfresh k (List.mem_cons_self k ks))
      rw [hset, ih (m ++ [(k, gen k)]) (List.nodup_cons.1 hnd).2 ?_]
      · simp
      · intro k' hk'
        have hkend : JsMap.keys (m ++ [(k, gen k)]) = JsMap.keys m ++ [k] := by
          simp [JsMap.keys]
        rw [hkend]
        intro hmem
        rcases List.mem_append.1 hmem with hmem | hmem
        · exact hfresh k' (List.mem_cons_of_mem k hk') hmem
        · rw [List.mem_singleton] at hmem
          exact (List.nodup_cons.1 hnd).1 (hmem ▸ hk')

theorem jsmap_keys_graph {κ ν : Type} (ks : List κ) (gen : κ → ν) :
    JsMap.keys (ks.map fun k => (k, gen k)) = ks := by
  induction ks with
  | nil => rfl
  | cons a ks ih => simp only [List.map_cons, JsMap.keys, List.map_cons] at ih ⊢; rw [ih]

theorem jsmap_get_graph {κ ν : Type} [DecidableEq κ] (gen : κ → ν) :
    ∀ (ks : List κ) (k : κ), k ∈ ks →
      JsMap.get k (ks.map fun k => (k, gen k)) = some (gen k) := by
  intro ks
  induction ks with
  | nil => intro k h; exact absurd h (List.not_mem_nil k)
  | cons a ks ih =>
      intro k h
      rw [List.map_cons, JsMap.get]
      by_cases hk : k = a
      · subst hk
        rw [if_pos rfl]
      · rw [if_neg hk]
        refine ih k ?_
        rcases List.mem_cons.1 h with h | h
        · exact absurd h hk
        · exact h

theorem prodKeys_nodup (n : ℕ) : (prodKeys n).Nodup := by
  rw [prodKeys, List.nodup_flatMap]
  constructor
  · intro z _
    exact (List.nodup_range n).map fun a b h => congrArg Prod.fst h
  · refine (List.nodup_range n).imp ?_
    intro z₁ z₂ hne
    rw [Function.onFun, List.disjoint_left]
    intro p hp₁ hp₂
    rw [List.mem_map] at hp₁ hp₂
    obtain ⟨x₁, -, rfl⟩ := hp₁
    obtain ⟨x₂, -, he⟩ := hp₂
    exact hne (congrArg Prod.snd he).symm

theorem prodKeys_mem (n x z : ℕ) : (x, z) ∈ prodKeys n ↔ x < n ∧ z < n := by
  simp only [prodKeys, List.mem_flatMap, List.mem_map, List.mem_range]
  constructor
  · rintro ⟨z', hz', x', hx', he⟩
    rw [Prod.ext_iff] at he
    obtain ⟨h1, h2⟩ := he
    simp only at h1 h2
    exact ⟨h1 ▸ hx', h2 ▸ hz'⟩
  · rintro ⟨hx, hz⟩
    exact ⟨z, hz, x, hx, rfl⟩

theorem prodKeys_length (n : ℕ) : (prodKeys n).length = n ^ 2 := by
  rw [prodKeys, List.length_flatMap]
  have h1 : ((List.range n).map (List.length ∘ fun z =>
      (List.range n).map fun x => (x, z))) = (List.range n).map fun _ => n := by
    simp [Function.comp_def]
  rw [h1, List.map_const', List.sum_replicate, List.length_range, smul_eq_mul, sq]

theorem list_foldl_flatMap {α β γ : Type} (l : List α) (f : α → List β)
    (g : γ → β → γ) (init : γ) :
    (l.flatMap f).foldl g init = l.foldl (fun acc a => (f a).foldl g acc) init := by
  induction l generalizing init with
  | nil => rfl
  | cons a l ih => simp [List.foldl_append, ih]

theorem double_foldl_set {ν : Type} (n : ℕ) (gen : ℕ → ℕ → ν) :
    ((List.range n).foldl (fun cache z =>
        (List.range n).foldl (fun cache x => JsMap.set (x, z) (gen x z) cache) cache)
      ([] : JsMap (ℕ × ℕ) ν)) =
    (prodKeys n).map fun p => (p, gen p.1 p.2) := by
  have h1 : (prodKeys n).foldl
      (fun cache p => JsMap.set p (gen p.1 p.2) cache) ([] : JsMap (ℕ × ℕ) ν) =
      (prodKeys n).map fun p => (p, gen p.1 p.2) := by
    rw [jsmap_foldl_set_fresh (fun p => gen p.1 p.2) (prodKeys n) []
      (prodKeys_nodup n) (fun k _ hk => by cases hk)]
    rfl
  rw [← h1, prodKeys, list_foldl_flatMap]
  simp only [List.foldl_map]

theorem pool_release_without_setData_witness :
    ((((PoolState.init 2).acquire).2).release 0 = ((PoolState.init 2).acquire).2 ∧
    ((poolRun (((PoolState.init 2).acquire).2) [PoolOp.acquire]).acquire).1 ≠ some 0 ∧
    (poolRun (((PoolState.init 2).acquire).2) [PoolOp.acquire]).boundIds.length ≤ 2 - 1) :=
  pool_release_without_setData (((PoolState.init 2).acquire).2) 0 [PoolOp.acquire]
    (by constructor <;> decide) (by decide) (by decide) (by decide) (by decide) (by decide)

theorem extract_config (st : CollisionState) :
    (extractHeightmapImageData st).config = st.config := by
  unfold extractHeightmapImageData
  split
  · rfl
  · cases st.heightMap <;> rfl

theorem extract_resolution (st : CollisionState) :
    (extractHeightmapImageData st).collisionResolution = st.collisionResolution := by
  unfold extractHeightmapImageData
  split
  · rfl
  · cases st.heightMap <;> rfl

theorem getHeightAt_eq_normalized (st : CollisionState) (wx wz : ℝ) :
    getHeightAt st wx wz = heightNormalized st wx wz * st.config.maxHeight := by
  unfold getHeightAt heightNormalized
  cases himg : st.heightmapImageData with
  | none => exact (zero_mul _).symm
  | some img =>
      dsimp only
      by_cases hb : (wx + st.config.worldSize / 2) / st.config.worldSize < 0 ∨
          (wx + st.config.worldSize / 2) / st.config.worldSize > 1 ∨
          (wz + st.config.worldSize / 2) / st.config.worldSize < 0 ∨
          (wz + st.config.worldSize / 2) / st.config.worldSize > 1
      · rw [if_pos hb, if_pos hb, zero_mul]
      · rw [if_neg hb, if_neg hb]

theorem computeAll_eq (st : CollisionState) (g : ImageGrid)
    (hhm : st.heightMap = some g) :
    computeAllCollisionData st = Except.ok
      { extractHeightmapImageData st with
        collisionCache := (prodKeys (2 ^ (st.config.levels - 1))).map fun p =>
          (p, generateChunkCollisionData (extractHeightmapImageData st) p.1 p.2
                (st.config.worldSize / ((2 ^ (st.config.levels - 1) : ℕ) : ℝ))
                (st.config.worldSize / 2)) } := by
  unfold computeAllCollisionData
  rw [hhm]
  dsimp only
  rw [double_foldl_set]

theorem generate_heights_entry (st : CollisionState) (x z : ℕ) (cs hw : ℝ)
    (row col : ℕ) (hrow : row < st.collisionResolution + 1)
    (hcol : col < st.collisionResolution + 1) :
    (generateChunkCollisionData st x z cs hw).heights.getD
        (row * (st.collisionResolution + 1) + col) 0 =
      getHeightAt st
        (((x : ℝ) * cs - hw + cs / 2) +
          ((col : ℝ) / (st.collisionResolution : ℝ) - 0.5) * cs)
        (((z : ℝ) * cs - hw + cs / 2) +
          ((row : ℝ) / (st.collisionResolution : ℝ) - 0.5) * cs) := by
  have hidx : row * (st.collisionResolution + 1) + col <
      (st.collisionResolution + 1) * (st.collisionResolution + 1) := by
    calc row * (st.collisionResolution + 1) + col
        < row * (st.collisionResolution + 1) + (st.collisionResolution + 1) := by omega
      _ = (row + 1) * (st.collisionResolution + 1) := by ring
      _ ≤ (st.collisionResolution + 1) * (st.collisionResolution + 1) :=
          Nat.mul_le_mul_right _ (by omega)
  have hdiv : (row * (st.collisionResolution + 1) + col) /
      (st.collisionResolution + 1) = row := by
    rw [Nat.mul_comm, Nat.mul_add_div (Nat.succ_pos _), Nat.div_eq_of_lt hcol, Nat.add_zero]
  have hmod : (row * (st.collisionResolution + 1) + col) %
      (st.collisionResolution + 1) = col := by
    rw [Nat.mul_comm, Nat.mul_add_mod, Nat.mod_eq_of_lt hcol]
  unfold generateChunkCollisionData
  dsimp only
  rw [List.getD_eq_getElem _ _ (by simpa using hidx), List.getElem_ofFn]
  simp only [hdiv, hmod]

/-- C2 (confirmed): `computeAllCollisionData` fills the cache with exactly
one entry per chunk index `(x, z)` with `x, z < 2^(levels-1)`, each holding
a `(resolution+1)²` grid of denormalized height samples and the physics
scale `(chunkSize, 1, chunkSize)`. -/
theorem computeAll_populates_full_grid (st : CollisionState) (g : ImageGrid)
    (_hlv : 1 ≤ st.config.levels) (hhm : st.heightMap = some g) :
    ∃ st', computeAllCollisionData st = Except.ok st' ∧
      st'.collisionCache.size = (2 ^ (st.config.levels - 1)) ^ 2 ∧
      st'.collisionCache.keys.Nodup ∧
      (∀ x z : ℕ, (x, z) ∈ st'.collisionCache.keys ↔
        x < 2 ^ (st.config.levels - 1) ∧ z < 2 ^ (st.config.levels - 1)) ∧
      ∀ x z : ℕ, x < 2 ^ (st.config.levels - 1) → z < 2 ^ (st.config.levels - 1) →
        ∃ d, getChunkCollisionData st' x z = some d ∧
          d.rows = st.collisionResolution + 1 ∧
          d.cols = st.collisionResolution + 1 ∧
          d.heights.length = d.rows * d.cols ∧
          d.scale = (st.config.worldSize / ((2 ^ (st.config.levels - 1) : ℕ) : ℝ), 1,
                     st.config.worldSize / ((2 ^ (st.config.levels - 1) : ℕ) : ℝ)) ∧
          ∀ row col : ℕ, row < d.rows → col < d.cols →
            d.heights.getD (row * d.cols + col) 0 =
              heightNormalized (extractHeightmapImageData st)
                (collisionSampleX st x col) (collisionSampleZ st z row) *
                st.config.maxHeight := by
  refine ⟨_, computeAll_eq st g hhm, ?_, ?_, ?_, ?_⟩
  · show ((prodKeys (2 ^ (st.config.levels - 1))).map _).length = _
    rw [List.length_map, prodKeys_length]
  · show (JsMap.keys ((prodKeys (2 ^ (st.config.levels - 1))).map _)).Nodup
    rw [jsmap_keys_graph]
    exact prodKeys_nodup _
  · intro x z
    show (x, z) ∈ JsMap.keys ((prodKeys (2 ^ (st.config.levels - 1))).map _) ↔ _
    rw [jsmap_keys_graph]
    exact prodKeys_mem _ x z
  · intro x z hx hz
    refine ⟨generateChunkCollisionData (extractHeightmapImageData st) x z
      (st.config.worldSize / ((2 ^ (st.config.levels - 1) : ℕ) : ℝ))
      (st.config.worldSize / 2), ?_, ?_, ?_, ?_, ?_, ?_⟩
    · show JsMap.get (x, z) ((prodKeys (2 ^ (st.config.levels - 1))).map _) = _
      exact jsmap_get_graph _ _ (x, z) ((prodKeys_mem _ x z).2 ⟨hx, hz⟩)
    · show (extractHeightmapImageData st).collisionResolution + 1 =
        st.collisionResolution + 1
      rw [extract_resolution]
    · show (extractHeightmapImageData st).collisionResolution + 1 =
        st.collisionResolution + 1
      rw [extract_resolution]
    · dsimp only [generateChunkCollisionData]
      rw [List.length_ofFn]
    · rfl
    · intro row col hrow hcol
      have hres := extract_resolution st
      have hcfg := extract_config st
      have key := generate_heights_entry (extractHeightmapImageData st) x z
        (st.config.worldSize / ((2 ^ (st.config.levels - 1) : ℕ) : ℝ))
        (st.config.worldSize / 2) row col hrow hcol
      rw [getHeightAt_eq_normalized] at key
      show (generateChunkCollisionData (extractHeightmapImageData st) x z
          (st.config.worldSize / ((2 ^ (st.config.levels - 1) : ℕ) : ℝ))
          (st.config.worldSize / 2)).heights.getD
        (row * ((extractHeightmapImageData st).collisionResolution + 1) + col) 0 = _
      rw [key, hres, hcfg]
      dsimp only [collisionSampleX, collisionSampleZ]

theorem computeAll_populates_full_grid_witness :
    ∃ st', computeAllCollisionData c2State = Except.ok st' ∧
      st'.collisionCache.size = (2 ^ (c2State.config.levels - 1)) ^ 2 ∧
      st'.collisionCache.keys.Nodup ∧
      (∀ x z : ℕ, (x, z) ∈ st'.collisionCache.keys ↔
        x < 2 ^ (c2State.config.levels - 1) ∧ z < 2 ^ (c2State.config.levels - 1)) ∧
      ∀ x z : ℕ, x < 2 ^ (c2State.config.levels - 1) →
          z < 2 ^ (c2State.config.levels - 1) →
        ∃ d, getChunkCollisionData st' x z = some d ∧
          d.rows = c2State.collisionResolution + 1 ∧
          d.cols = c2State.collisionResolution + 1 ∧
          d.heights.length = d.rows * d.cols ∧
          d.scale = (c2State.config.worldSize /
                       ((2 ^ (c2State.config.levels - 1) : ℕ) : ℝ), 1,
                     c2State.config.worldSize /
                       ((2 ^ (c2State.config.levels - 1) : ℕ) : ℝ)) ∧
          ∀ row col : ℕ, row < d.rows → col < d.cols →
            d.heights.getD (row * d.cols + col) 0 =
              heightNormalized (extractHeightmapImageData c2State)
                (collisionSampleX c2State x col) (collisionSampleZ c2State z row) *
                c2State.config.maxHeight :=
  computeAll_populates_full_grid c2State ⟨1, 1, fun _ => 0⟩ (by decide) rfl

/-- C7 (confirmed): immediately after `setCollisionResolution`, every chunk
lookup misses — the whole cache was cleared, so no stale data at the old
resolution is observable. -/
theorem setResolution_invalidates_cache (st : CollisionState) (r x z : ℕ) :
    getChunkCollisionData (setCollisionResolution r st) x z = none :=
  rfl

/-- C9 counterexample: the constructor accepts every one of these invalid
values verbatim — it never fails, clamps, or substitutes a default — and
`setLODDistanceRatio` likewise stores a negative ratio unchanged. -/
theorem config_validation_counterexample :
    (mkResolvedConfig c9BadInput).worldSize = -5 ∧
    (mkResolvedConfig c9BadInput).levels = 0 ∧
    (mkResolvedConfig c9BadInput).lodDistanceRatio = -1 ∧
    (mkResolvedConfig c9BadInput).resolution = 7 ∧
    (mkResolvedConfig c9BadInput).maxChunks = 0 ∧
    (setLODDistanceRatio (-2) (mkResolvedConfig c9BadInput)).lodDistanceRatio = -2 :=
  ⟨rfl, rfl, rfl, rfl, rfl, rfl⟩

/-- C9 (corrected): construction and the setters perform no validation at
all; every provided value — valid or not — is stored unchanged, and only
missing fields receive defaults. -/
theorem config_no_validation (c : TerrainConfig) (w r : ℝ) (lv res mc : ℕ)
    (hw : c.worldSize = some w) (hl : c.levels = some lv)
    (hr : c.lodDistanceRatio = some r) (hres : c.resolution = some res)
    (hmc : c.maxChunks = some mc) :
    (mkResolvedConfig c).worldSize = w ∧
    (mkResolvedConfig c).levels = lv ∧
    (mkResolvedConfig c).lodDistanceRatio = r ∧
    (mkResolvedConfig c).resolution = res ∧
    (mkResolvedConfig c).maxChunks = mc ∧
    (∀ (cfg : ResolvedTerrainConfig) (r' : ℝ),
      (setLODDistanceRatio r' cfg).lodDistanceRatio = r') ∧
    (∀ (st : CollisionState) (r' : ℕ),
      (setCollisionResolution r' st).collisionResolution = r') := by
  rw [mkResolvedConfig, hw, hl, hr, hres, hmc]
  exact ⟨rfl, rfl, rfl, rfl, rfl, fun cfg r' => rfl, fun st r' => rfl⟩

theorem qnode_eta (n : QNode) :
    QNode.mk n.x n.z n.size n.level n.instanceId n.isLeaf n.children = n := by
  cases n
  rfl

theorem isLeaf_mk (x z s : ℝ) (l : ℕ) (id : ℤ) (b : Bool) (cs : List QNode) :
    (QNode.mk x z s l id b cs).isLeaf = b := rfl

theorem instanceId_mk (x z s : ℝ) (l : ℕ) (id : ℤ) (b : Bool) (cs : List QNode) :
    (QNode.mk x z s l id b cs).instanceId = id := rfl

theorem children_mk (x z s : ℝ) (l : ℕ) (id : ℤ) (b : Bool) (cs : List QNode) :
    (QNode.mk x z s l id b cs).children = cs := rfl

theorem level_mk (x z s : ℝ) (l : ℕ) (id : ℤ) (b : Bool) (cs : List QNode) :
    (QNode.mk x z s l id b cs).level = l := rfl

theorem x_mk (x z s : ℝ) (l : ℕ) (id : ℤ) (b : Bool) (cs : List QNode) :
    (QNode.mk x z s l id b cs).x = x := rfl

theorem z_mk (x z s : ℝ) (l : ℕ) (id : ℤ) (b : Bool) (cs : List QNode) :
    (QNode.mk x z s l id b cs).z = z := rfl

theorem size_mk (x z s : ℝ) (l : ℕ) (id : ℤ) (b : Bool) (cs : List QNode) :
    (QNode.mk x z s l id b cs).size = s := rfl

theorem setId_footprint (n : QNode) (id : ℤ) :
    (n.setId id).x = n.x ∧ (n.setId id).z = n.z ∧ (n.setId id).size = n.size ∧
    (n.setId id).level = n.level ∧ (n.setId id).isLeaf = n.isLeaf ∧
    (n.setId id).children = n.children ∧ (n.setId id).instanceId = id := by
  cases n
  exact ⟨rfl, rfl, rfl, rfl, rfl, rfl, rfl⟩

theorem splitNode_eq (n : QNode) (p : PoolState) :
    splitNode n p =
      (QNode.mk n.x n.z n.size n.level (-1) false
        [QNode.mk (n.x - n.size / 4) (n.z - n.size / 4) (n.size / 2) (n.level + 1) (-1) true [],
         QNode.mk (n.x + n.size / 4) (n.z - n.size / 4) (n.size / 2) (n.level + 1) (-1) true [],
         QNode.mk (n.x - n.size / 4) (n.z + n.size / 4) (n.size / 2) (n.level + 1) (-1) true [],
         QNode.mk (n.x + n.size / 4) (n.z + n.size / 4) (n.size / 2) (n.level + 1) (-1) true []],
       removeInstance n.instanceId p) := by
  cases n
  rfl

theorem mergeNode_eq (n : QNode) (p : PoolState) :
    mergeNode n p =
      (QNode.mk n.x n.z n.size n.level n.instanceId true [],
       disposeList n.children p) := by
  cases n
  rfl

theorem updateNode_zero (cam : Option Camera) (cfg : ResolvedTerrainConfig)
    (n : QNode) (p : PoolState) : updateNode cam cfg 0 n p = (n, p, []) := by
  rw [updateNode]

theorem updateChildren_nil (cam : Option Camera) (cfg : ResolvedTerrainConfig)
    (fuel : ℕ) (p : PoolState) : updateChildren cam cfg fuel [] p = ([], p, []) := by
  rw [updateChildren]

theorem updateChildren_cons (cam : Option Camera) (cfg : ResolvedTerrainConfig)
    (fuel : ℕ) (c : QNode) (cs : List QNode) (p : PoolState) :
    updateChildren cam cfg fuel (c :: cs) p =
      ((updateNode cam cfg fuel c p).1 ::
        (updateChildren cam cfg fuel cs (updateNode cam cfg fuel c p).2.1).1,
       (updateChildren cam cfg fuel cs (updateNode cam cfg fuel c p).2.1).2.1,
       (updateNode cam cfg fuel c p).2.2 ++
        (updateChildren cam cfg fuel cs (updateNode cam cfg fuel c p).2.1).2.2) := by
  rw [updateChildren]

theorem updateNode_succ_of_should {cam : Option Camera} {cfg : ResolvedTerrainConfig}
    {n : QNode} (fuel : ℕ) (p : PoolState) (hs : ShouldSplit cam cfg n) :
    updateNode cam cfg (fuel + 1) n p =
      (QNode.mk (if n.isLeaf then splitNode n p else (n, p)).1.x
        (if n.isLeaf then splitNode n p else (n, p)).1.z
        (if n.isLeaf then splitNode n p else (n, p)).1.size
        (if n.isLeaf then splitNode n p else (n, p)).1.level
        (if n.isLeaf then splitNode n p else (n, p)).1.instanceId
        (if n.isLeaf then splitNode n p else (n, p)).1.isLeaf
        (updateChildren cam cfg fuel (if n.isLeaf then splitNode n p else (n, p)).1.children
          (if n.isLeaf then splitNode n p else (n, p)).2).1,
       (updateChildren cam cfg fuel (if n.isLeaf then splitNode n p else (n, p)).1.children
          (if n.isLeaf then splitNode n p else (n, p)).2).2.1,
       (updateChildren cam cfg fuel (if n.isLeaf then splitNode n p else (n, p)).1.children
          (if n.isLeaf then splitNode n p else (n, p)).2).2.2) := by
  rw [updateNode]
  simp only [if_pos hs]

theorem updateNode_succ_of_not_should {cam : Option Camera} {cfg : ResolvedTerrainConfig}
    {n : QNode} (fuel : ℕ) (p : PoolState) (hs : ¬ ShouldSplit cam cfg n) :
    updateNode cam cfg (fuel + 1) n p =
      (if (if n.isLeaf then (n, p) else mergeNode n p).1.instanceId = -1 then
        ((if n.isLeaf then (n, p) else mergeNode n p).1.setId
          (registerInstance cfg (if n.isLeaf then (n, p) else mergeNode n p).1
            (if n.isLeaf then (n, p) else mergeNode n p).2).1,
         (registerInstance cfg (if n.isLeaf then (n, p) else mergeNode n p).1
            (if n.isLeaf then (n, p) else mergeNode n p).2).2, [])
      else ((if n.isLeaf then (n, p) else mergeNode n p).1,
        (if n.isLeaf then (n, p) else mergeNode n p).2, [])) := by
  rw [updateNode]
  simp only [if_neg hs]

theorem updateNode_split_leaf {cam : Option Camera} {cfg : ResolvedTerrainConfig}
    {n : QNode} (fuel : ℕ) (p : PoolState) (hs : ShouldSplit cam cfg n)
    (hl : n.isLeaf = true) :
    updateNode cam cfg (fuel + 1) n p =
      (QNode.mk n.x n.z n.size n.level (-1) false
        (updateChildren cam cfg fuel (splitNode n p).1.children (splitNode n p).2).1,
       (updateChildren cam cfg fuel (splitNode n p).1.children (splitNode n p).2).2.1,
       (updateChildren cam cfg fuel (splitNode n p).1.children (splitNode n p).2).2.2) := by
  rw [updateNode_succ_of_should fuel p hs, if_pos hl]
  rw [splitNode_eq]
  simp only [QNode.x, QNode.z, QNode.size, QNode.level, QNode.instanceId, QNode.isLeaf]

theorem updateNode_internal_split {cam : Option Camera} {cfg : ResolvedTerrainConfig}
    {n : QNode} (fuel : ℕ) (p : PoolState) (hs : ShouldSplit cam cfg n)
    (hl : n.isLeaf = false) :
    updateNode cam cfg (fuel + 1) n p =
      (QNode.mk n.x n.z n.size n.level n.instanceId n.isLeaf
        (updateChildren cam cfg fuel n.children p).1,
       (updateChildren cam cfg fuel n.children p).2.1,
       (updateChildren cam cfg fuel n.children p).2.2) := by
  rw [updateNode_succ_of_should fuel p hs,
    if_neg (show ¬ (n.isLeaf = true) by rw [hl]; exact Bool.false_ne_true)]

theorem updateNode_leaf_noSplit_assigned {cam : Option Camera}
    {cfg : ResolvedTerrainConfig} {n : QNode} (fuel : ℕ) (p : PoolState)
    (hs : ¬ ShouldSplit cam cfg n) (hl : n.isLeaf = true)
    (hid : ¬ n.instanceId = -1) :
    updateNode cam cfg (fuel + 1) n p = (n, p, []) := by
  rw [updateNode_succ_of_not_should fuel p hs, if_pos hl]
  rw [if_neg (show ¬ ((n, p).1.instanceId = -1) from hid)]

theorem updateNode_leaf_noSplit_unassigned {cam : Option Camera}
    {cfg : ResolvedTerrainConfig} {n : QNode} (fuel : ℕ) (p : PoolState)
    (hs : ¬ ShouldSplit cam cfg n) (hl : n.isLeaf = true)
    (hid : n.instanceId = -1) :
    updateNode cam cfg (fuel + 1) n p =
      (n.setId (registerInstance cfg n p).1, (registerInstance cfg n p).2, []) := by
  rw [updateNode_succ_of_not_should fuel p hs, if_pos hl]
  rw [if_pos (show (n, p).1.instanceId = -1 from hid)]

theorem updateNode_internal_noSplit_assigned {cam : Option Camera}
    {cfg : ResolvedTerrainConfig} {n : QNode} (fuel : ℕ) (p : PoolState)
    (hs : ¬ ShouldSplit cam cfg n) (hl : n.isLeaf = false)
    (hid : ¬ n.instanceId = -1) :
    updateNode cam cfg (fuel + 1) n p =
      (QNode.mk n.x n.z n.size n.level n.instanceId true [],
       disposeList n.children p, []) := by
  rw [updateNode_succ_of_not_should fuel p hs,
    if_neg (show ¬ (n.isLeaf = true) by rw [hl]; exact Bool.false_ne_true),
    mergeNode_eq]
  rw [if_neg (show ¬ ((QNode.mk n.x n.z n.size n.level n.instanceId true
    ([] : List QNode), disposeList n.children p).1.instanceId = -1) from hid)]

theorem updateNode_internal_noSplit_unassigned {cam : Option Camera}
    {cfg : ResolvedTerrainConfig} {n : QNode} (fuel : ℕ) (p : PoolState)
    (hs : ¬ ShouldSplit cam cfg n) (hl : n.isLeaf = false)
    (hid : n.instanceId = -1) :
    updateNode cam cfg (fuel + 1) n p =
      ((QNode.mk n.x n.z n.size n.level n.instanceId true ([] : List QNode)).setId
        (registerInstance cfg
          (QNode.mk n.x n.z n.size n.level n.instanceId true [])
          (disposeList n.children p)).1,
       (registerInstance cfg
          (QNode.mk n.x n.z n.size n.level n.instanceId true [])
          (disposeList n.children p)).2, []) := by
  rw [updateNode_succ_of_not_should fuel p hs,
    if_neg (show ¬ (n.isLeaf = true) by rw [hl]; exact Bool.false_ne_true),
    mergeNode_eq]
  rw [if_pos (show (QNode.mk n.x n.z n.size n.level n.instanceId true
    ([] : List QNode), disposeList n.children p).1.instanceId = -1 from hid)]

theorem updateNode_isLeaf_succ (cam : Option Camera) (cfg : ResolvedTerrainConfig)
    (fuel : ℕ) (n : QNode) (p : PoolState) :
    ((updateNode cam cfg (fuel + 1) n p).1.isLeaf = false ↔ ShouldSplit cam cfg n) := by
  by_cases hs : ShouldSplit cam cfg n
  · cases hl : n.isLeaf
    · rw [updateNode_internal_split fuel p hs hl]
      rw [show ((QNode.mk n.x n.z n.size n.level n.instanceId n.isLeaf
        (updateChildren cam cfg fuel n.children p).1,
        (updateChildren cam cfg fuel n.children p).2.1,
        (updateChildren cam cfg fuel n.children p).2.2).1.isLeaf) = n.isLeaf
        from isLeaf_mk _ _ _ _ _ _ _, hl]
      exact iff_of_true rfl hs
    · rw [updateNode_split_leaf fuel p hs hl]
      rw [show ((QNode.mk n.x n.z n.size n.level (-1) false
        (updateChildren cam cfg fuel (splitNode n p).1.children (splitNode n p).2).1,
        (updateChildren cam cfg fuel (splitNode n p).1.children (splitNode n p).2).2.1,
        (updateChildren cam cfg fuel (splitNode n p).1.children
          (splitNode n p).2).2.2).1.isLeaf) = false from isLeaf_mk _ _ _ _ _ _ _]
      exact iff_of_true rfl hs
  · cases hl : n.isLeaf
    · by_cases hid : n.instanceId = -1
      · rw [updateNode_internal_noSplit_unassigned fuel p hs hl hid]
        have h5 := (setId_footprint (QNode.mk n.x n.z n.size n.level n.instanceId true [])
          (registerInstance cfg (QNode.mk n.x n.z n.size n.level n.instanceId true [])
            (disposeList n.children p)).1).2.2.2.2.1
        rw [show (((QNode.mk n.x n.z n.size n.level n.instanceId true
            ([] : List QNode)).setId
          (registerInstance cfg (QNode.mk n.x n.z n.size n.level n.instanceId true [])
            (disposeList n.children p)).1,
          (registerInstance cfg (QNode.mk n.x n.z n.size n.level n.instanceId true [])
            (disposeList n.children p)).2,
          ([] : List ChunkEvent)).1.isLeaf) =
          (QNode.mk n.x n.z n.size n.level n.instanceId true
            ([] : List QNode)).isLeaf from h5]
        rw [isLeaf_mk]
        exact iff_of_false (by simp) hs
      · rw [updateNode_internal_noSplit_assigned fuel p hs hl hid]
        rw [show ((QNode.mk n.x n.z n.size n.level n.instanceId true ([] : List QNode),
          disposeList n.children p, ([] : List ChunkEvent)).1.isLeaf) = true
          from isLeaf_mk _ _ _ _ _ _ _]
        exact iff_of_false (by simp) hs
    · by_cases hid : n.instanceId = -1
      · rw [updateNode_leaf_noSplit_unassigned fuel p hs hl hid]
        have h5 := (setId_footprint n (registerInstance cfg n p).1).2.2.2.2.1
        rw [show ((n.setId (registerInstance cfg n p).1, (registerInstance cfg n p).2,
          ([] : List ChunkEvent)).1.isLeaf) = n.isLeaf from h5, hl]
        exact iff_of_false (by simp) hs
      · rw [updateNode_leaf_noSplit_assigned fuel p hs hl hid]
        rw [hl]
        exact iff_of_false (by simp) hs

theorem updateNode_footprint (cam : Option Camera) (cfg : ResolvedTerrainConfig)
    (fuel : ℕ) (n : QNode) (p : PoolState) :
    (updateNode cam cfg fuel n p).1.x = n.x ∧
    (updateNode cam cfg fuel n p).1.z = n.z ∧
    (updateNode cam cfg fuel n p).1.size = n.size ∧
    (updateNode cam cfg fuel n p).1.level = n.level := by
  cases fuel with
  | zero => rw [updateNode_zero]; exact ⟨rfl, rfl, rfl, rfl⟩
  | succ fuel =>
      by_cases hs : ShouldSplit cam cfg n
      · cases hl : n.isLeaf
        · rw [updateNode_internal_split fuel p hs hl]
          exact ⟨rfl, rfl, rfl, rfl⟩
        · rw [updateNode_split_leaf fuel p hs hl]
          exact ⟨rfl, rfl, rfl, rfl⟩
      · cases hl : n.isLeaf
        · by_cases hid : n.instanceId = -1
          · rw [updateNode_internal_noSplit_unassigned fuel p hs hl hid]
            exact ⟨rfl, rfl, rfl, rfl⟩
          · rw [updateNode_internal_noSplit_assigned fuel p hs hl hid]
            exact ⟨rfl, rfl, rfl, rfl⟩
        · by_cases hid : n.instanceId = -1
          · rw [updateNode_leaf_noSplit_unassigned fuel p hs hl hid]
            obtain ⟨h1, h2, h3, h4, -, -⟩ := setId_footprint n (registerInstance cfg n p).1
            exact ⟨h1, h2, h3, h4⟩
          · rw [updateNode_leaf_noSplit_assigned fuel p hs hl hid]
            exact ⟨rfl, rfl, rfl, rfl⟩

theorem updateChildren_events {cam : Option Camera} {cfg : ResolvedTerrainConfig}
    {fuel : ℕ} (h : ∀ n p, (updateNode cam cfg fuel n p).2.2 = []) :
    ∀ (cs : List QNode) (p : PoolState), (updateChildren cam cfg fuel cs p).2.2 = [] := by
  intro cs
  induction cs with
  | nil => intro p; rw [updateChildren_nil]
  | cons c cs ih =>
      intro p
      rw [updateChildren_cons]
      show (updateNode cam cfg fuel c p).2.2 ++ _ = []
      rw [h, ih, List.nil_append]

theorem updateNode_events (cam : Option Camera) (cfg : ResolvedTerrainConfig) :
    ∀ (fuel : ℕ) (n : QNode) (p : PoolState), (updateNode cam cfg fuel n p).2.2 = [] := by
  intro fuel
  induction fuel with
  | zero => intro n p; rw [updateNode_zero]
  | succ fuel ih =>
      intro n p
      by_cases hs : ShouldSplit cam cfg n
      · cases hl : n.isLeaf
        · rw [updateNode_internal_split fuel p hs hl]
          exact updateChildren_events ih _ _
        · rw [updateNode_split_leaf fuel p hs hl]
          exact updateChildren_events ih _ _
      · cases hl : n.isLeaf
        · by_cases hid : n.instanceId = -1
          · rw [updateNode_internal_noSplit_unassigned fuel p hs hl hid]
          · rw [updateNode_internal_noSplit_assigned fuel p hs hl hid]
        · by_cases hid : n.instanceId = -1
          · rw [updateNode_leaf_noSplit_unassigned fuel p hs hl hid]
          · rw [updateNode_leaf_noSplit_assigned fuel p hs hl hid]

theorem not_shouldSplit_none (cfg : ResolvedTerrainConfig) (n : QNode) :
    ¬ ShouldSplit none cfg n :=
  fun h => not_top_lt h.1

/-- C1 (confirmed): during an update pass a node ends up internal exactly
when the planar camera distance is strictly below `size * lodDistanceRatio`
and the node is above the finest level; at exactly the threshold it stays a
leaf, and with no camera bound (distance `Infinity`) it never splits. -/
theorem update_split_condition (cam : Option Camera) (cfg : ResolvedTerrainConfig)
    (fuel : ℕ) (n : QNode) (p : PoolState) :
    ((updateNode cam cfg (fuel + 1) n p).1.isLeaf = false ↔
      (getDistanceFromCamera cam n.x n.z <
        ENNReal.ofReal (n.size * cfg.lodDistanceRatio) ∧
       n.level < cfg.levels - 1)) ∧
    (getDistanceFromCamera cam n.x n.z =
        ENNReal.ofReal (n.size * cfg.lodDistanceRatio) →
      (updateNode cam cfg (fuel + 1) n p).1.isLeaf = true) ∧
    (cam = none → (updateNode cam cfg (fuel + 1) n p).1.isLeaf = true) := by
  have hiff := updateNode_isLeaf_succ cam cfg fuel n p
  refine ⟨hiff, ?_, ?_⟩
  · intro heq
    cases hres : (updateNode cam cfg (fuel + 1) n p).1.isLeaf
    · exfalso
      have hsp : getDistanceFromCamera cam n.x n.z <
          ENNReal.ofReal (n.size * cfg.lodDistanceRatio) := (hiff.1 hres).1
      rw [heq] at hsp
      exact absurd hsp (lt_irrefl _)
    · rfl
  · rintro rfl
    cases hres : (updateNode none cfg (fuel + 1) n p).1.isLeaf
    · exact absurd (hiff.1 hres) (not_shouldSplit_none cfg n)
    · rfl

theorem update_split_condition_witness :
    (updateNode none (mkResolvedConfig {}) 1
      (QNode.mk 0 0 2048 0 (-1) true []) (PoolState.init 500)).1.isLeaf = true ∧
    (updateNode (some ⟨2, 0⟩) (mkResolvedConfig {}) 1
      (QNode.mk 0 0 1 0 (-1) true []) (PoolState.init 500)).1.isLeaf = true := by
  constructor
  · exact (update_split_condition none (mkResolvedConfig {}) 0
      (QNode.mk 0 0 2048 0 (-1) true []) (PoolState.init 500)).2.2 rfl
  · refine (update_split_condition (some ⟨2, 0⟩) (mkResolvedConfig {}) 0
      (QNode.mk 0 0 1 0 (-1) true []) (PoolState.init 500)).2.1 ?_
    show ENNReal.ofReal (Real.sqrt (((2 : ℝ) - 0) * (2 - 0) + ((0 : ℝ) - 0) * (0 - 0))) =
      ENNReal.ofReal ((1 : ℝ) * (mkResolvedConfig {}).lodDistanceRatio)
    have h4 : ((2 : ℝ) - 0) * (2 - 0) + ((0 : ℝ) - 0) * (0 - 0) = 4 := by norm_num
    have hsq : Real.sqrt 4 = 2 := by
      rw [show (4 : ℝ) = 2 ^ 2 by norm_num]
      exact Real.sqrt_sq (by norm_num)
    rw [h4, hsq]
    norm_num [mkResolvedConfig]

theorem shouldSplit_mk (cam : Option Camera) (cfg : ResolvedTerrainConfig)
    (n : QNode) (id : ℤ) (b : Bool) (cs : List QNode) :
    ShouldSplit cam cfg (QNode.mk n.x n.z n.size n.level id b cs) ↔
      ShouldSplit cam cfg n :=
  Iff.rfl

theorem shouldSplit_setId (cam : Option Camera) (cfg : ResolvedTerrainConfig)
    (n : QNode) (id : ℤ) :
    ShouldSplit cam cfg (n.setId id) ↔ ShouldSplit cam cfg n := by
  cases n
  exact Iff.rfl

theorem stable_leaf (cam : Option Camera) (cfg : ResolvedTerrainConfig) {n : QNode}
    (hl : n.isLeaf = true) (hs : ¬ ShouldSplit cam cfg n)
    (hch : n.children = []) : Stable cam cfg n := by
  refine Stable.mk n ⟨fun h => absurd (hl ▸ h) (by simp), fun h => absurd h hs⟩ ?_
  rw [hch]
  intro c hc
  cases hc

theorem not_shouldSplit_of_level {cam : Option Camera} {cfg : ResolvedTerrainConfig}
    {n : QNode} (h : ¬ (n.level < cfg.levels - 1)) : ¬ ShouldSplit cam cfg n :=
  fun hs => h hs.2

theorem update_noSplit_stable (cam : Option Camera) (cfg : ResolvedTerrainConfig)
    (fuel : ℕ) (n : QNode) (p : PoolState) (hs : ¬ ShouldSplit cam cfg n)
    (hleafch : n.isLeaf = true → n.children = []) :
    Stable cam cfg (updateNode cam cfg (fuel + 1) n p).1 ∧
    WellFormed (updateNode cam cfg (fuel + 1) n p).1 ∧
    (updateNode cam cfg (fuel + 1) n p).1.level = n.level := by
  cases hl : n.isLeaf
  · by_cases hid : n.instanceId = -1
    · rw [updateNode_internal_noSplit_unassigned fuel p hs hl hid]
      refine ⟨stable_leaf cam cfg rfl ?_ rfl, WellFormed.mk _ (fun _ => rfl)
        (fun c hc => by cases hc) (fun c hc => by cases hc), rfl⟩
      intro hsp
      exact hs hsp
    · rw [updateNode_internal_noSplit_assigned fuel p hs hl hid]
      refine ⟨stable_leaf cam cfg rfl ?_ rfl, WellFormed.mk _ (fun _ => rfl)
        (fun c hc => by cases hc) (fun c hc => by cases hc), rfl⟩
      intro hsp
      exact hs hsp
  · by_cases hid : n.instanceId = -1
    · rw [updateNode_leaf_noSplit_unassigned fuel p hs hl hid]
      obtain ⟨-, -, -, h4, h5, h6, -⟩ :=
        setId_footprint n (registerInstance cfg n p).1
      refine ⟨stable_leaf cam cfg (h5.trans hl) ?_ (h6.trans (hleafch hl)), ?_, h4⟩
      · intro hsp
        exact hs ((shouldSplit_setId cam cfg n _).1 hsp)
      · refine WellFormed.mk _ (fun _ => h6.trans (hleafch hl)) ?_ ?_ <;>
          rw [h6, hleafch hl] <;> intro c hc <;> cases hc
    · rw [updateNode_leaf_noSplit_assigned fuel p hs hl hid]
      refine ⟨stable_leaf cam cfg hl ?_ (hleafch hl), WellFormed.mk _ hleafch
        (by rw [hleafch hl]; intro c hc; cases hc)
        (by rw [hleafch hl]; intro c hc; cases hc), rfl⟩
      intro hsp
      exact hs hsp

theorem wellFormed_fields {n : QNode} (h : WellFormed n) :
    (n.isLeaf = true → n.children = []) ∧
    (∀ c ∈ n.children, c.level = n.level + 1) ∧
    (∀ c ∈ n.children, WellFormed c) := by
  cases h with
  | mk _ h1 h2 h3 => exact ⟨h1, h2, h3⟩

theorem update_stabilizes (cam : Option Camera) (cfg : ResolvedTerrainConfig) :
    ∀ (fuel : ℕ) (n : QNode) (p : PoolState), WellFormed n →
      cfg.levels ≤ fuel + 1 + n.level →
      Stable cam cfg (updateNode cam cfg (fuel + 1) n p).1 ∧
      WellFormed (updateNode cam cfg (fuel + 1) n p).1 ∧
      (updateNode cam cfg (fuel + 1) n p).1.level = n.level := by
  intro fuel
  induction fuel with
  | zero =>
      intro n p hwf hbound
      have hs : ¬ ShouldSplit cam cfg n := by
        refine not_shouldSplit_of_level ?_
        omega
      exact update_noSplit_stable cam cfg 0 n p hs (wellFormed_fields hwf).1
  | succ fuel ih =>
      intro n p hwf hbound
      by_cases hs : ShouldSplit cam cfg n
      · have hchildren : ∀ (cs : List QNode) (q : PoolState),
            (∀ c ∈ cs, WellFormed c ∧ c.level = n.level + 1) →
            (∀ c' ∈ (updateChildren cam cfg (fuel + 1) cs q).1,
              Stable cam cfg c' ∧ WellFormed c' ∧ c'.level = n.level + 1) := by
          intro cs
          induction cs with
          | nil =>
              intro q hcs c' hc'
              rw [updateChildren_nil] at hc'
              cases hc'
          | cons c cs ihcs =>
              intro q hcs c' hc'
              rw [updateChildren_cons] at hc'
              rcases List.mem_cons.1 hc' with hc' | hc'
              · obtain ⟨hcwf, hclev⟩ := hcs c (List.mem_cons_self c cs)
                have := ih c q hcwf (by omega)
                exact hc' ▸ ⟨this.1, this.2.1, this.2.2.trans hclev⟩
              · exact ihcs _ (fun d hd => hcs d (List.mem_cons_of_mem c hd)) c' hc'
        cases hl : n.isLeaf
        · rw [updateNode_internal_split (fuel + 1) p hs hl]
          obtain ⟨-, hlev, hchwf⟩ := wellFormed_fields hwf
          have hres := hchildren n.children p
            (fun c hc => ⟨hchwf c hc, hlev c hc⟩)
          refine ⟨Stable.mk _ ⟨fun _ => hs, fun _ => by rw [isLeaf_mk, hl]⟩
            (fun c hc => (hres c (by exact hc)).1), ?_, rfl⟩
          refine WellFormed.mk _ (fun h => ?_) (fun c hc => ?_) (fun c hc => ?_)
          · rw [isLeaf_mk, hl] at h
            cases h
          · rw [children_mk] at hc
            rw [level_mk]
            exact (hres c hc).2.2
          · rw [children_mk] at hc
            exact (hres c hc).2.1
        · rw [updateNode_split_leaf (fuel + 1) p hs hl]
          rw [splitNode_eq]
          have hres := hchildren
            [QNode.mk (n.x - n.size / 4) (n.z - n.size / 4) (n.size / 2) (n.level + 1)
              (-1) true [],
             QNode.mk (n.x + n.size / 4) (n.z - n.size / 4) (n.size / 2) (n.level + 1)
              (-1) true [],
             QNode.mk (n.x - n.size / 4) (n.z + n.size / 4) (n.size / 2) (n.level + 1)
              (-1) true [],
             QNode.mk (n.x + n.size / 4) (n.z + n.size / 4) (n.size / 2) (n.level + 1)
              (-1) true []]
            (removeInstance n.instanceId p) ?_
          · refine ⟨Stable.mk _ ⟨fun _ => hs, fun _ => by rw [isLeaf_mk]⟩
              (fun c hc => (hres c (by exact hc)).1), ?_, rfl⟩
            refine WellFormed.mk _ (fun h => ?_) (fun c hc => ?_) (fun c hc => ?_)
            · rw [isLeaf_mk] at h
              cases h
            · rw [children_mk] at hc
              rw [level_mk]
              exact (hres c hc).2.2
            · rw [children_mk] at hc
              exact (hres c hc).2.1
          · intro c hc
            fin_cases hc <;>
              exact ⟨WellFormed.mk _ (fun _ => rfl) (fun d hd => by cases hd)
                (fun d hd => by cases hd), rfl⟩
      · exact update_noSplit_stable cam cfg (fuel + 1) n p hs (wellFormed_fields hwf).1

theorem stable_fields {cam : Option Camera} {cfg : ResolvedTerrainConfig} {n : QNode}
    (h : Stable cam cfg n) :
    (n.isLeaf = false ↔ ShouldSplit cam cfg n) ∧
    (∀ c ∈ n.children, Stable cam cfg c) := by
  cases h with
  | mk _ h1 h2 => exact ⟨h1, h2⟩

theorem allAssigned_fields {n : QNode} (h : AllLeavesAssigned n) :
    (n.isLeaf = true → n.instanceId ≠ -1) ∧
    (∀ c ∈ n.children, AllLeavesAssigned c) := by
  cases h with
  | mk _ h1 h2 => exact ⟨h1, h2⟩

theorem update_noop_of_stable (cam : Option Camera) (cfg : ResolvedTerrainConfig) :
    ∀ (fuel : ℕ) (n : QNode) (p : PoolState), Stable cam cfg n →
      AllLeavesAssigned n → updateNode cam cfg fuel n p = (n, p, []) := by
  intro fuel
  induction fuel with
  | zero => intro n p _ _; exact updateNode_zero cam cfg n p
  | succ fuel ih =>
      intro n p hst hass
      obtain ⟨hiff, hch⟩ := stable_fields hst
      obtain ⟨hassl, hassc⟩ := allAssigned_fields hass
      by_cases hs : ShouldSplit cam cfg n
      · have hl : n.isLeaf = false := hiff.2 hs
        rw [updateNode_internal_split fuel p hs hl]
        have hkids : ∀ (cs : List QNode) (q : PoolState),
            (∀ c ∈ cs, Stable cam cfg c) → (∀ c ∈ cs, AllLeavesAssigned c) →
            updateChildren cam cfg fuel cs q = (cs, q, []) := by
          intro cs
          induction cs with
          | nil => intro q _ _; exact updateChildren_nil cam cfg fuel q
          | cons c cs ihc =>
              intro q h1 h2
              rw [updateChildren_cons,
                ih c q (h1 c (List.mem_cons_self c cs)) (h2 c (List.mem_cons_self c cs))]
              show ((c : QNode) :: (updateChildren cam cfg fuel cs q).1,
                (updateChildren cam cfg fuel cs q).2.1,
                ([] : List ChunkEvent) ++ (updateChildren cam cfg fuel cs q).2.2) = _
              rw [ihc q (fun d hd => h1 d (List.mem_cons_of_mem c hd))
                (fun d hd => h2 d (List.mem_cons_of_mem c hd))]
              rfl
        rw [hkids n.children p hch hassc]
        show (QNode.mk n.x n.z n.size n.level n.instanceId n.isLeaf n.children, p,
          ([] : List ChunkEvent)) = (n, p, [])
        rw [qnode_eta]
      · have hl : n.isLeaf = true := by
          cases hlf : n.isLeaf
          · exact absurd (hiff.1 hlf) hs
          · rfl
        exact updateNode_leaf_noSplit_assigned fuel p hs hl (hassl hl)

theorem stripIds_mk_map (x z s : ℝ) (l : ℕ) (id : ℤ) (b : Bool) (cs : List QNode) :
    stripIds (QNode.mk x z s l id b cs) =
      QNode.mk x z s l 0 b (cs.map stripIds) := by
  rw [stripIds, List.attach_map_val]

theorem stripIds_setId (n : QNode) (id : ℤ) : stripIds (n.setId id) = stripIds n := by
  cases n
  rw [QNode.setId, stripIds_mk_map, stripIds_mk_map]

theorem update_shape_of_stable (cam : Option Camera) (cfg : ResolvedTerrainConfig) :
    ∀ (fuel : ℕ) (n : QNode) (p : PoolState), Stable cam cfg n →
      stripIds (updateNode cam cfg fuel n p).1 = stripIds n := by
  intro fuel
  induction fuel with
  | zero => intro n p _; rw [updateNode_zero]
  | succ fuel ih =>
      intro n p hst
      obtain ⟨hiff, hch⟩ := stable_fields hst
      by_cases hs : ShouldSplit cam cfg n
      · have hl : n.isLeaf = false := hiff.2 hs
        rw [updateNode_internal_split fuel p hs hl]
        have hkids : ∀ (cs : List QNode) (q : PoolState),
            (∀ c ∈ cs, Stable cam cfg c) →
            (updateChildren cam cfg fuel cs q).1.map stripIds = cs.map stripIds := by
          intro cs
          induction cs with
          | nil => intro q _; rw [updateChildren_nil]
          | cons c cs ihc =>
              intro q h1
              rw [updateChildren_cons]
              show stripIds (updateNode cam cfg fuel c q).1 ::
                ((updateChildren cam cfg fuel cs
                  (updateNode cam cfg fuel c q).2.1).1.map stripIds) = _
              rw [ih c q (h1 c (List.mem_cons_self c cs)),
                ihc _ (fun d hd => h1 d (List.mem_cons_of_mem c hd))]
              rfl
        show stripIds (QNode.mk n.x n.z n.size n.level n.instanceId n.isLeaf
          (updateChildren cam cfg fuel n.children p).1) = stripIds n
        rw [stripIds_mk_map, hkids n.children p hch]
        conv_rhs => rw [← qnode_eta n, stripIds_mk_map]
      · have hl : n.isLeaf = true := by
          cases hlf : n.isLeaf
          · exact absurd (hiff.1 hlf) hs
          · rfl
        by_cases hid : n.instanceId = -1
        · rw [updateNode_leaf_noSplit_unassigned fuel p hs hl hid]
          exact stripIds_setId n _
        · rw [updateNode_leaf_noSplit_assigned fuel p hs hl hid]

/-- C8 (corrected): for a well-formed tree updated with enough fuel, a
second `update` with the same camera never splits or merges (the stripped
shape is unchanged), and — provided the first pass left every leaf holding
a slot — it is a complete no-op: same tree, same pool, no events.  When the
first pass left leaves unassigned (pool exhaustion) the second pass may
acquire slots for them, which is the documented retry behaviour. -/
theorem update_second_call (cam : Option Camera) (cfg : ResolvedTerrainConfig)
    (fuel : ℕ) (n : QNode) (p : PoolState) (hwf : WellFormed n)
    (hfuel : cfg.levels ≤ fuel + 1 + n.level) :
    (stripIds (updateNode cam cfg (fuel + 1)
        (updateNode cam cfg (fuel + 1) n p).1
        (updateNode cam cfg (fuel + 1) n p).2.1).1 =
      stripIds (updateNode cam cfg (fuel + 1) n p).1) ∧
    (AllLeavesAssigned (updateNode cam cfg (fuel + 1) n p).1 →
      updateNode cam cfg (fuel + 1)
          (updateNode cam cfg (fuel + 1) n p).1
          (updateNode cam cfg (fuel + 1) n p).2.1 =
        ((updateNode cam cfg (fuel + 1) n p).1,
         (updateNode cam cfg (fuel + 1) n p).2.1, [])) := by
  have hst := (update_stabilizes cam cfg fuel n p hwf hfuel).1
  exact ⟨update_shape_of_stable cam cfg (fuel + 1) _ _ hst,
    fun hass => update_noop_of_stable cam cfg (fuel + 1) _ _ hst hass⟩

theorem update_second_call_witness :
    (stripIds (updateNode none (mkResolvedConfig { levels := some 1 }) 1
        (updateNode none (mkResolvedConfig { levels := some 1 }) 1
          (QNode.mk 0 0 2048 0 (-1) true []) (PoolState.init 500)).1
        (updateNode none (mkResolvedConfig { levels := some 1 }) 1
          (QNode.mk 0 0 2048 0 (-1) true []) (PoolState.init 500)).2.1).1 =
      stripIds (updateNode none (mkResolvedConfig { levels := some 1 }) 1
        (QNode.mk 0 0 2048 0 (-1) true []) (PoolState.init 500)).1) ∧
    (AllLeavesAssigned (updateNode none (mkResolvedConfig { levels := some 1 }) 1
        (QNode.mk 0 0 2048 0 (-1) true []) (PoolState.init 500)).1 →
      updateNode none (mkResolvedConfig { levels := some 1 }) 1
          (updateNode none (mkResolvedConfig { levels := some 1 }) 1
            (QNode.mk 0 0 2048 0 (-1) true []) (PoolState.init 500)).1
          (updateNode none (mkResolvedConfig { levels := some 1 }) 1
            (QNode.mk 0 0 2048 0 (-1) true []) (PoolState.init 500)).2.1 =
        ((updateNode none (mkResolvedConfig { levels := some 1 }) 1
            (QNode.mk 0 0 2048 0 (-1) true []) (PoolState.init 500)).1,
         (updateNode none (mkResolvedConfig { levels := some 1 }) 1
            (QNode.mk 0 0 2048 0 (-1) true []) (PoolState.init 500)).2.1, [])) :=
  update_second_call none (mkResolvedConfig { levels := some 1 }) 0
    (QNode.mk 0 0 2048 0 (-1) true []) (PoolState.init 500)
    (WellFormed.mk _ (fun _ => rfl) (fun c hc => by cases hc) (fun c hc => by cases hc))
    (by decide)

/-- C4 (code bug): `QuadtreeNode.update` contains no call to
`TerrainLOD._emitChunkEnterLOD0` or `_emitChunkExitLOD0`, so an update pass
emits no chunk event whatsoever — even in a run in which a node becomes a
slot-assigned leaf at the finest level (here the first child of the split
root, at level `levels - 1` with slot 0), where the documentation promises
exactly one enter event. -/
theorem chunk_events_never_emitted :
    (∀ (cam : Option Camera) (cfg : ResolvedTerrainConfig) (fuel : ℕ) (n : QNode)
        (p : PoolState), (updateNode cam cfg fuel n p).2.2 = []) ∧
    (∃ c ∈ (updateNode (some ⟨0, 0⟩) cfgC4 2 rootC4 (PoolState.init 4)).1.children,
      c.level = cfgC4.levels - 1 ∧ c.isLeaf = true ∧ ¬ c.instanceId = -1) := by
  refine ⟨fun cam cfg fuel n p => updateNode_events cam cfg fuel n p, ?_⟩
  have hdist : getDistanceFromCamera (some ⟨0, 0⟩) rootC4.x rootC4.z = 0 := by
    show ENNReal.ofReal (Real.sqrt (((0 : ℝ) - 0) * ((0 : ℝ) - 0) +
      ((0 : ℝ) - 0) * ((0 : ℝ) - 0))) = 0
    rw [show ((0 : ℝ) - 0) * ((0 : ℝ) - 0) + ((0 : ℝ) - 0) * ((0 : ℝ) - 0) = 0 by
      norm_num]
    rw [Real.sqrt_zero, ENNReal.ofReal_zero]
  have hsroot : ShouldSplit (some ⟨0, 0⟩) cfgC4 rootC4 := by
    constructor
    · rw [hdist]
      refine ENNReal.ofReal_pos.2 ?_
      show (0 : ℝ) < 4 * 1
      norm_num
    · show (0 : ℕ) < 2 - 1
      decide
  have e1 : updateNode (some ⟨0, 0⟩) cfgC4 2 rootC4 (PoolState.init 4) =
      (QNode.mk rootC4.x rootC4.z rootC4.size rootC4.level (-1) false
        (updateChildren (some ⟨0, 0⟩) cfgC4 1
          (splitNode rootC4 (PoolState.init 4)).1.children
          (splitNode rootC4 (PoolState.init 4)).2).1,
       (updateChildren (some ⟨0, 0⟩) cfgC4 1
          (splitNode rootC4 (PoolState.init 4)).1.children
          (splitNode rootC4 (PoolState.init 4)).2).2.1,
       (updateChildren (some ⟨0, 0⟩) cfgC4 1
          (splitNode rootC4 (PoolState.init 4)).1.children
          (splitNode rootC4 (PoolState.init 4)).2).2.2) :=
    updateNode_split_leaf 1 (PoolState.init 4) hsroot rfl
  rw [e1, children_mk]
  rw [show (splitNode rootC4 (PoolState.init 4)).1.children =
      QNode.mk (0 - 4 / 4) (0 - 4 / 4) (4 / 2) (0 + 1) (-1) true [] ::
      [QNode.mk (0 + 4 / 4) (0 - 4 / 4) (4 / 2) (0 + 1) (-1) true [],
       QNode.mk (0 - 4 / 4) (0 + 4 / 4) (4 / 2) (0 + 1) (-1) true [],
       QNode.mk (0 + 4 / 4) (0 + 4 / 4) (4 / 2) (0 + 1) (-1) true []] from rfl]
  rw [updateChildren_cons]
  have hnsA : ¬ ShouldSplit (some ⟨0, 0⟩) cfgC4
      (QNode.mk (0 - 4 / 4) (0 - 4 / 4) (4 / 2) (0 + 1) (-1) true []) :=
    not_shouldSplit_of_level (by decide)
  have e2 : updateNode (some ⟨0, 0⟩) cfgC4 1
      (QNode.mk (0 - 4 / 4) (0 - 4 / 4) (4 / 2) (0 + 1) (-1) true [])
      (splitNode rootC4 (PoolState.init 4)).2 =
      ((QNode.mk (0 - 4 / 4) (0 - 4 / 4) (4 / 2) (0 + 1) (-1) true []).setId
        (registerInstance cfgC4
          (QNode.mk (0 - 4 / 4) (0 - 4 / 4) (4 / 2) (0 + 1) (-1) true [])
          (splitNode rootC4 (PoolState.init 4)).2).1,
       (registerInstance cfgC4
          (QNode.mk (0 - 4 / 4) (0 - 4 / 4) (4 / 2) (0 + 1) (-1) true [])
          (splitNode rootC4 (PoolState.init 4)).2).2, []) :=
    updateNode_leaf_noSplit_unassigned 0 _ hnsA rfl rfl
  rw [e2]
  refine ⟨_, List.mem_cons_self _ _, rfl, rfl, ?_⟩
  show ¬ ((0 : ℤ) = -1)
  decide

/-- C8 counterexample: with the camera fixed at `(3, 0)`, the first update
pass on `rootC8` starves the leaf `nA` (pool exhausted when it is visited)
and only later frees slots 2–5 by merging `nD`; the second pass with the
very same camera then acquires slot 4 for `nA`, so the pool changes on the
second call — the free list shrinks from `[2, 3, 4]` to `[2, 3]` — even
though the viewer did not move. -/
theorem update_idempotence_counterexample :
    (updateNode camC8 cfgC8 3
        (updateNode camC8 cfgC8 3 rootC8 poolC8).1
        (updateNode camC8 cfgC8 3 rootC8 poolC8).2.1).2.1.freeIds = [2, 3] ∧
    (updateNode camC8 cfgC8 3 rootC8 poolC8).2.1.freeIds = [2, 3, 4] := by
  have hsr : ShouldSplit camC8 cfgC8 rootC8 := by
    constructor
    · show ENNReal.ofReal (Real.sqrt (((3 : ℝ) - 0) * ((3 : ℝ) - 0) +
        ((0 : ℝ) - 0) * ((0 : ℝ) - 0))) < ENNReal.ofReal ((4 : ℝ) * 1)
      rw [ENNReal.ofReal_lt_ofReal_iff (by norm_num)]
      rw [show (((3 : ℝ) - 0) * ((3 : ℝ) - 0) + ((0 : ℝ) - 0) * ((0 : ℝ) - 0)) = 9 by
        norm_num]
      rw [show (9 : ℝ) = 3 ^ 2 by norm_num, Real.sqrt_sq (by norm_num)]
      norm_num
    · show (0 : ℕ) < 3 - 1
      decide
  have hnsA : ¬ ShouldSplit camC8 cfgC8 nA := by
    rintro ⟨hlt, -⟩
    refine absurd hlt (not_lt.2 ?_)
    show ENNReal.ofReal ((2 : ℝ) * 1) ≤ ENNReal.ofReal (Real.sqrt
      (((3 : ℝ) - -1) * ((3 : ℝ) - -1) + ((0 : ℝ) - -1) * ((0 : ℝ) - -1)))
    apply ENNReal.ofReal_le_ofReal
    rw [show (((3 : ℝ) - -1) * ((3 : ℝ) - -1) + ((0 : ℝ) - -1) * ((0 : ℝ) - -1)) = 17 by
      norm_num]
    rw [show ((2 : ℝ) * 1) = Real.sqrt 4 by
      rw [show (4 : ℝ) = 2 ^ 2 by norm_num, Real.sqrt_sq (by norm_num)]; norm_num]
    exact Real.sqrt_le_sqrt (by norm_num)
  have hnsB : ¬ ShouldSplit camC8 cfgC8 nB := by
    rintro ⟨hlt, -⟩
    refine absurd hlt (not_lt.2 ?_)
    show ENNReal.ofReal ((2 : ℝ) * 1) ≤ ENNReal.ofReal (Real.sqrt
      (((3 : ℝ) - 1) * ((3 : ℝ) - 1) + ((0 : ℝ) - -1) * ((0 : ℝ) - -1)))
    apply ENNReal.ofReal_le_ofReal
    rw [show (((3 : ℝ) - 1) * ((3 : ℝ) - 1) + ((0 : ℝ) - -1) * ((0 : ℝ) - -1)) = 5 by
      norm_num]
    rw [show ((2 : ℝ) * 1) = Real.sqrt 4 by
      rw [show (4 : ℝ) = 2 ^ 2 by norm_num, Real.sqrt_sq (by norm_num)]; norm_num]
    exact Real.sqrt_le_sqrt (by norm_num)
  have hnsC : ¬ ShouldSplit camC8 cfgC8 nC := by
    rintro ⟨hlt, -⟩
    refine absurd hlt (not_lt.2 ?_)
    show ENNReal.ofReal ((2 : ℝ) * 1) ≤ ENNReal.ofReal (Real.sqrt
      (((3 : ℝ) - -1) * ((3 : ℝ) - -1) + ((0 : ℝ) - 1) * ((0 : ℝ) - 1)))
    apply ENNReal.ofReal_le_ofReal
    rw [show (((3 : ℝ) - -1) * ((3 : ℝ) - -1) + ((0 : ℝ) - 1) * ((0 : ℝ) - 1)) = 17 by
      norm_num]
    rw [show ((2 : ℝ) * 1) = Real.sqrt 4 by
      rw [show (4 : ℝ) = 2 ^ 2 by norm_num, Real.sqrt_sq (by norm_num)]; norm_num]
    exact Real.sqrt_le_sqrt (by norm_num)
  have hnsD : ¬ ShouldSplit camC8 cfgC8 nD := by
    rintro ⟨hlt, -⟩
    refine absurd hlt (not_lt.2 ?_)
    show ENNReal.ofReal ((2 : ℝ) * 1) ≤ ENNReal.ofReal (Real.sqrt
      (((3 : ℝ) - 1) * ((3 : ℝ) - 1) + ((0 : ℝ) - 1) * ((0 : ℝ) - 1)))
    apply ENNReal.ofReal_le_ofReal
    rw [show (((3 : ℝ) - 1) * ((3 : ℝ) - 1) + ((0 : ℝ) - 1) * ((0 : ℝ) - 1)) = 5 by
      norm_num]
    rw [show ((2 : ℝ) * 1) = Real.sqrt 4 by
      rw [show (4 : ℝ) = 2 ^ 2 by norm_num, Real.sqrt_sq (by norm_num)]; norm_num]
    exact Real.sqrt_le_sqrt (by norm_num)
  have eA1 : updateNode camC8 cfgC8 2 nA poolC8 = (nA, poolC8, []) :=
    updateNode_leaf_noSplit_unassigned 1 poolC8 hnsA rfl rfl
  have eB1 : updateNode camC8 cfgC8 2 nB poolC8 = (nB, poolC8, []) :=
    updateNode_leaf_noSplit_assigned 1 poolC8 hnsB rfl (by decide)
  have eC1 : updateNode camC8 cfgC8 2 nC poolC8 = (nC, poolC8, []) :=
    updateNode_leaf_noSplit_assigned 1 poolC8 hnsC rfl (by decide)
  have eD1 : updateNode camC8 cfgC8 2 nD poolC8 = (nDafter, pAfterD, []) :=
    updateNode_internal_noSplit_unassigned 1 poolC8 hnsD rfl rfl
  have elist1 : updateChildren camC8 cfgC8 2 [nA, nB, nC, nD] poolC8 =
      ([nA, nB, nC, nDafter], pAfterD, []) := by
    rw [updateChildren_cons, eA1]
    dsimp only
    rw [updateChildren_cons, eB1]
    dsimp only
    rw [updateChildren_cons, eC1]
    dsimp only
    rw [updateChildren_cons, eD1]
    dsimp only
    rw [updateChildren_nil]
    rfl
  have eu1 : updateNode camC8 cfgC8 3 rootC8 poolC8 =
      (QNode.mk 0 0 4 0 (-1) false [nA, nB, nC, nDafter], pAfterD, []) := by
    have h := updateNode_internal_split 2 poolC8 hsr rfl
    rw [show rootC8.children = [nA, nB, nC, nD] from rfl, elist1] at h
    exact h
  have hsr2 : ShouldSplit camC8 cfgC8
      (QNode.mk 0 0 4 0 (-1) false [nA, nB, nC, nDafter]) := hsr
  have eA2 : updateNode camC8 cfgC8 2 nA pAfterD =
      (QNode.mk (-1) (-1) 2 1 4 true [], pFinal, []) :=
    updateNode_leaf_noSplit_unassigned 1 pAfterD hnsA rfl rfl
  have eB2 : updateNode camC8 cfgC8 2 nB pFinal = (nB, pFinal, []) :=
    updateNode_leaf_noSplit_assigned 1 pFinal hnsB rfl (by decide)
  have eC2 : updateNode camC8 cfgC8 2 nC pFinal = (nC, pFinal, []) :=
    updateNode_leaf_noSplit_assigned 1 pFinal hnsC rfl (by decide)
  have eD2 : updateNode camC8 cfgC8 2 nDafter pFinal = (nDafter, pFinal, []) :=
    updateNode_leaf_noSplit_assigned 1 pFinal (fun hsp => hnsD hsp) rfl (by decide)
  have elist2 : updateChildren camC8 cfgC8 2 [nA, nB, nC, nDafter] pAfterD =
      ([QNode.mk (-1) (-1) 2 1 4 true [], nB, nC, nDafter], pFinal, []) := by
    rw [updateChildren_cons, eA2]
    dsimp only
    rw [updateChildren_cons, eB2]
    dsimp only
    rw [updateChildren_cons, eC2]
    dsimp only
    rw [updateChildren_cons, eD2]
    dsimp only
    rw [updateChildren_nil]
    rfl
  have eu2 : updateNode camC8 cfgC8 3
      (QNode.mk 0 0 4 0 (-1) false [nA, nB, nC, nDafter]) pAfterD =
      (QNode.mk 0 0 4 0 (-1) false
        [QNode.mk (-1) (-1) 2 1 4 true [], nB, nC, nDafter], pFinal, []) := by
    have h := updateNode_internal_split 2 pAfterD hsr2 rfl
    rw [show (QNode.mk 0 0 4 0 (-1) false [nA, nB, nC, nDafter]).children =
      [nA, nB, nC, nDafter] from rfl, elist2] at h
    exact h
  constructor
  · rw [eu1]
    dsimp only
    rw [eu2]
    rfl
  · rw [eu1]
    rfl

theorem config_no_validation_witness :
    (mkResolvedConfig c9BadInput).worldSize = -5 ∧
    (mkResolvedConfig c9BadInput).levels = 0 ∧
    (mkResolvedConfig c9BadInput).lodDistanceRatio = -1 ∧
    (mkResolvedConfig c9BadInput).resolution = 7 ∧
    (mkResolvedConfig c9BadInput).maxChunks = 0 ∧
    (∀ (cfg : ResolvedTerrainConfig) (r' : ℝ),
      (setLODDistanceRatio r' cfg).lodDistanceRatio = r') ∧
    (∀ (st : CollisionState) (r' : ℕ),
      (setCollisionResolution r' st).collisionResolution = r') :=
  config_no_validation c9BadInput (-5) (-1) 0 7 0 rfl rfl rfl rfl rfl

end TerrainLOD
